import Mathlib

/-! EduVerse: course chat page and enrollment controller.

A shallow embedding of the parts of the EduVerse repository that carry the
chat feed and the enrollment rules:

* `client/src/pages/CourseDetailsPage.jsx`: the React state of the course
  page, the handlers `handleSendMessage` and `on("message")`, the two
  `useEffect` bodies (`fetchData`, Socket.IO setup) as a step function on an
  explicit page state;
* `server/controllers/enrollmentController.js`: the three handlers over an
  explicit store, with store failures as an explicit input;
* `server/routes/courses.js`: the router as a list of layers with Express
  dispatch over it;
* `client/src/pages/student/StudentDashboard.jsx`: the notification handlers,
  the initial fetch, enrollment and the course search filter;
* `server/utils/transcriptGenerator.js`: the request `generateTranscript`
  builds, over the library functions it calls;
* `client/src/pages/tutor/EditCoursePage.jsx`, `CreateCoursePage.jsx`: the
  save, delete and drag handlers; the video and transcript handlers of the
  course page.

Asynchronous handlers take the outcome of their request as an argument and
return the next state together with the requests sent.

JavaScript strings are embedded as Lean `String`s (sequences of code points);
identifiers (`ObjectId`s in their string form) are `String`s.
-/

namespace Js

/-- ECMAScript `WhiteSpace` and `LineTerminator` code points, the set that
`String.prototype.trim` strips. -/
def isWhiteSpace (c : Char) : Bool :=
  let n := c.toNat
  n == 0x09 || n == 0x0A || n == 0x0B || n == 0x0C || n == 0x0D || n == 0x20 ||
  n == 0xA0 || n == 0x1680 || (0x2000 ≤ n && n ≤ 0x200A) || n == 0x2028 ||
  n == 0x2029 || n == 0x202F || n == 0x205F || n == 0x3000 || n == 0xFEFF

/-- `String.prototype.trim`: drop white space from both ends. -/
def trim (s : String) : String :=
  String.mk ((s.data.dropWhile isWhiteSpace).reverse.dropWhile isWhiteSpace).reverse

/-- JavaScript truthiness of a string: only the empty string is falsy. -/
def truthy (s : String) : Bool := s != ""

end Js

namespace Client

/-- The populated `user` / `tutor` sub-document as the page reads it
(`msg.user._id`, `msg.user.name`, `course.tutor._id`). -/
structure UserRef where
  _id : String
  name : String
  deriving DecidableEq, Repr

/-- The logged-in user supplied by `useAuth()`; the page reads `_id` and
`role`. -/
structure AuthUser where
  _id : String
  role : String
  deriving DecidableEq, Repr

/-- A chat message object as delivered by `chatApi.getMessages` and by the
`message` socket event; the page reads `_id`, `user` and `content`. -/
structure ChatMessage where
  _id : String
  user : UserRef
  content : String
  deriving DecidableEq, Repr

/-- A video sub-document (`videoSchema` in `server/models/Course.js`). -/
structure Video where
  _id : String
  title : String
  videoUrl : String
  transcript : String
  order : Int
  deriving DecidableEq, Repr

/-- A course document as the client receives it (`courseSchema`, with the
tutor populated). -/
structure Course where
  _id : String
  title : String
  description : String
  thumbnail : Option String
  tutor : UserRef
  videos : List Video
  deriving DecidableEq, Repr

/-- Events the client emits on a socket. -/
inductive ClientEvent where
  | joinRoom (courseId : String)
  | sendMessage (courseId : String) (userId : String) (message : String)
  deriving DecidableEq, Repr

/-- One `socket.emit` call: the socket it was made on and the event. -/
structure Emit where
  socket : Nat
  event : ClientEvent
  deriving DecidableEq, Repr

end Client

namespace CourseDetailsPage

open Client

/-- A socket created by `io(...)` in the Socket.IO effect. `room` is the `id`
captured by the closures of its `connect` and `reconnect` handlers, `emitted`
the events emitted on it (oldest first), `disconnected` whether the effect's
cleanup has called `disconnect()` on it. -/
structure SocketRec where
  sid : Nat
  room : String
  emitted : List ClientEvent
  disconnected : Bool
  deriving DecidableEq, Repr

/-- The state of the component: the route parameter `id`, the `useState`
cells, the user from `useAuth()`, and the sockets the component has created.
`effectSocket` is the socket owned by the currently mounted run of the
Socket.IO effect (the one its cleanup will disconnect). -/
structure State where
  id : String
  course : Option Course
  loading : Bool
  selectedVideo : Option Video
  messages : List ChatMessage
  newMessage : String
  socket : Option Nat
  isGeneratingTranscript : Bool
  user : Option AuthUser
  sockets : List SocketRec
  effectSocket : Option Nat
  deriving DecidableEq, Repr

/-- The state on mount for route parameter `id` and auth user `user`. -/
def State.init (id : String) (user : Option AuthUser) : State :=
  { id := id, course := none, loading := true, selectedVideo := none,
    messages := [], newMessage := "", socket := none,
    isGeneratingTranscript := false, user := user, sockets := [],
    effectSocket := none }

/-- `handleSendMessage` (lines 198-215): returns the next state and the
`socket.emit` calls made. -/
def handleSendMessage (p : State) : State × List Emit :=
  match p.socket, p.user with
  | some sock, some user =>
    if !Js.truthy (Js.trim p.newMessage) then (p, [])
    else
      let messageData :=
        ClientEvent.sendMessage p.id user._id (Js.trim p.newMessage)
      ({ p with newMessage := "" }, [⟨sock, messageData⟩])
  | _, _ => (p, [])

/-- The `message` handler (lines 87-94):
`setMessages(prev => [...prev, message])`. -/
def onMessage (prevMessages : List ChatMessage) (message : ChatMessage) :
    List ChatMessage :=
  prevMessages ++ [message]

/-- First part of `fetchData` (lines 29-35), run when
`courseApi.getCourse(id)` resolves with `data`: `setCourse(data)` and, when the
course has videos, `setSelectedVideo(data.videos[0])`. -/
def fetchData_course (p : State) (data : Course) : State :=
  let p1 := { p with course := some data }
  if data.videos.length > 0 then { p1 with selectedVideo := data.videos.head? }
  else p1

/-- Second part of `fetchData` (lines 37-39 and the `finally`), run when
`chatApi.getMessages(id)` resolves with `data`: `setMessages(data)`, then
`setLoading(false)`. -/
def fetchData_messages (p : State) (data : List ChatMessage) : State :=
  { p with messages := data, loading := false }

/-- The `catch` and `finally` of `fetchData` (lines 40-61), run when either
request rejects: a toast is shown and `setLoading(false)` runs. -/
def fetchData_catch (p : State) : State :=
  { p with loading := false }

/-- Cleanup of the Socket.IO effect (lines 114-117): `newSocket.disconnect()`
on the socket the mounted run of the effect created. -/
def socketCleanup (p : State) : State :=
  match p.effectSocket with
  | none => p
  | some s =>
    { p with
      sockets := p.sockets.map fun r =>
        if r.sid = s then { r with disconnected := true } else r
      effectSocket := none }

/-- Body of the Socket.IO effect (lines 68-113): nothing when `course` is
null; otherwise `io(...)` creates a socket whose handlers capture the current
`id`, and `setSocket(newSocket)` stores it. -/
def socketSetup (p : State) : State :=
  match p.course with
  | none => p
  | some _ =>
    let sid := p.sockets.length
    { p with
      sockets := p.sockets ++ [⟨sid, p.id, [], false⟩]
      socket := some sid
      effectSocket := some sid }

/-- A change of a dependency in `[course, id, toast]`: React runs the cleanup
of the previous run of the effect, then the effect body. -/
def socketEffect (p : State) : State :=
  socketSetup (socketCleanup p)

/-- The `connect` and `reconnect` handlers (lines 81-85, 105-108) of socket
`sid`: `newSocket.emit("joinRoom", { courseId: id })` with the captured `id`. -/
def onConnect (p : State) (sid : Nat) : State :=
  { p with
    sockets := p.sockets.map fun r =>
      if r.sid = sid then
        { r with emitted := r.emitted ++ [ClientEvent.joinRoom r.room] }
      else r }

/-- Record `socket.emit` calls in the sockets they were made on. -/
def recordEmits (sockets : List SocketRec) (emits : List Emit) :
    List SocketRec :=
  emits.foldl
    (fun acc e => acc.map fun r =>
      if r.sid = e.socket then { r with emitted := r.emitted ++ [e.event] }
      else r)
    sockets

/-- What can happen to the mounted page. The two requests of `fetchData` are
separate events because each `await` lets other events in; a rerun of
`fetchData` after a route change does not cancel the previous one, so the
responses are not tied to an order here. `message` is a `message` event on any
socket of the page: every socket registers the same handler, which only calls
`setMessages`. -/
inductive Event where
  | courseResponse (data : Course)
  | messagesResponse (data : List ChatMessage)
  | fetchError
  | connect (sid : Nat)
  | reconnect (sid : Nat)
  | message (m : ChatMessage)
  | routeChange (newId : String)
  | input (text : String)
  | submit
  deriving DecidableEq, Repr

/-- One event applied to the page. `setCourse` stores a new object, so the
Socket.IO effect (dependencies `[course, id, toast]`) reruns after every
course response; it also reruns when the route parameter changes. -/
def step (p : State) : Event → State
  | .courseResponse data => socketEffect (fetchData_course p data)
  | .messagesResponse data => fetchData_messages p data
  | .fetchError => fetchData_catch p
  | .connect sid => onConnect p sid
  | .reconnect sid => onConnect p sid
  | .message m => { p with messages := onMessage p.messages m }
  | .routeChange newId =>
    if newId = p.id then p else socketEffect { p with id := newId }
  | .input text => { p with newMessage := text }
  | .submit =>
    let out := handleSendMessage p
    { out.1 with sockets := recordEmits out.1.sockets out.2 }

/-- A run of the page: the events applied in order. -/
def run (evs : List Event) (p : State) : State :=
  evs.foldl step p

/-- The messages carried by the `message` events of a trace, in order. -/
def received : List Event → List ChatMessage
  | [] => []
  | .message m :: evs => m :: received evs
  | _ :: evs => received evs

/-- Whether an event is a history response. -/
def Event.isHistory : Event → Bool
  | .messagesResponse _ => true
  | _ => false

/-- The room discipline of the page's sockets: every `joinRoom` emitted on a
socket carries the `id` its handlers captured, and a socket on which
`disconnect()` has not been called is the mounted effect's socket, created for
the current `id`. -/
def RoomInv (p : State) : Prop :=
  (∀ r ∈ p.sockets, ∀ c, ClientEvent.joinRoom c ∈ r.emitted → c = r.room) ∧
  (∀ r ∈ p.sockets, r.disconnected = false →
    r.room = p.id ∧ p.effectSocket = some r.sid)

/-- A course with no videos, used in examples. -/
def sampleCourse : Course :=
  ⟨"c1", "Algebra", "Groups and rings", none, ⟨"t1", "Tutor"⟩, []⟩

/-- A chat message, used in examples. -/
def sampleMessage : ChatMessage := ⟨"m1", ⟨"u1", "Ann"⟩, "hello"⟩

/-- A logged-in student, used in examples. -/
def sampleUser : AuthUser := ⟨"u1", "student"⟩

end CourseDetailsPage

namespace Server

/-- An `Enrollment` document (`enrollmentSchema`, `models/Enrollment.js`). -/
structure Enrollment where
  _id : String
  student : String
  course : String
  progress : Int
  enrolledAt : Nat
  deriving DecidableEq, Repr

/-- A `Course` document (`courseSchema`, `models/Course.js`); `tutor` is the
string form of the tutor's `ObjectId`. -/
structure Course where
  _id : String
  title : String
  description : String
  thumbnail : Option String
  tutor : String
  videos : List Client.Video
  createdAt : Nat
  deriving DecidableEq, Repr

/-- A `User` document, the target of `ref: 'User'`; the controller reads
`name` and `email` through `populate('student', 'name email')`. -/
structure User where
  _id : String
  name : String
  email : String
  deriving DecidableEq, Repr

/-- Kinds of notification. -/
inductive NotificationKind where
  | new_message
  | enrollment
  | other
  deriving DecidableEq, Repr

/-- Modelled from the spec: the Notification record of the data model
(section 3); its mongoose model is not among the sources. -/
structure Notification where
  _id : String
  recipient : String
  kind : NotificationKind
  course : Option String
  message : String
  read : Bool
  createdAt : Nat
  deriving DecidableEq, Repr

/-- The document store: one collection per model. -/
structure Store where
  enrollments : List Enrollment
  courses : List Course
  users : List User
  notifications : List Notification
  deriving DecidableEq, Repr

/-- The store operations the enrollment controller calls. -/
inductive StoreOp where
  | enrollmentFindOne
  | enrollmentSave
  | enrollmentFind
  | courseFindById
  deriving DecidableEq, Repr

/-- Which store operations reject (throw) when called. -/
structure Faults where
  enrollmentFindOne : Bool
  enrollmentSave : Bool
  enrollmentFind : Bool
  courseFindById : Bool
  deriving DecidableEq, Repr

/-- One call of a store operation and whether it threw. -/
structure StoreCall where
  op : StoreOp
  threw : Bool
  deriving DecidableEq, Repr

/-- Whether the given store operation rejects under the given faults. -/
def Faults.throws (ft : Faults) : StoreOp → Bool
  | .enrollmentFindOne => ft.enrollmentFindOne
  | .enrollmentSave => ft.enrollmentSave
  | .enrollmentFind => ft.enrollmentFind
  | .courseFindById => ft.courseFindById

/-- What mongoose supplies when a document is constructed: the generated
`_id` and `Date.now`. -/
structure Env where
  freshId : String
  now : Nat
  deriving DecidableEq, Repr

/-- The decoded token the `authenticate` middleware puts in `req.user`. -/
structure AuthPayload where
  userId : String
  deriving DecidableEq, Repr

/-- The body of an enroll request, `req.body`. -/
structure ReqBody where
  courseId : String
  deriving DecidableEq, Repr

/-- The route parameters, `req.params`. -/
structure ReqParams where
  courseId : String
  deriving DecidableEq, Repr

/-- The parts of the request the controller reads; `body` is `none` when
`req.body` is undefined. -/
structure Req where
  user : AuthPayload
  body : Option ReqBody
  params : ReqParams
  deriving DecidableEq, Repr

/-- An enrollment with `course` populated (`populate('course')`); `none` when
the referenced course is not in the store. -/
structure EnrollmentWithCourse where
  _id : String
  student : String
  course : Option Course
  progress : Int
  enrolledAt : Nat
  deriving DecidableEq, Repr

/-- The fields `populate('student', 'name email')` selects. -/
structure StudentView where
  _id : String
  name : String
  email : String
  deriving DecidableEq, Repr

/-- An enrollment with `student` populated; `none` when the referenced user
is not in the store. -/
structure EnrollmentWithStudent where
  _id : String
  student : Option StudentView
  course : String
  progress : Int
  enrolledAt : Nat
  deriving DecidableEq, Repr

/-- The JSON bodies the controller sends. -/
inductive Body where
  | message (message : String)
  | enrollment (doc : Enrollment)
  | studentEnrollments (docs : List EnrollmentWithCourse)
  | courseEnrollments (docs : List EnrollmentWithStudent)
  deriving DecidableEq, Repr

/-- One response sent on `res`: `res.status(s).json(b)`; `res.json(b)` alone
sends status 200. -/
structure Response where
  status : Nat
  body : Body
  deriving DecidableEq, Repr

/-- What a handler that returned has done: the store afterwards, the responses
sent (oldest first), the store operations called (oldest first). -/
structure Result where
  store : Store
  sent : List Response
  calls : List StoreCall
  deriving DecidableEq, Repr

/-- An exception that leaves a handler. -/
inductive JsError where
  | typeError
  deriving DecidableEq, Repr

end Server

namespace enrollmentController

open Server

/-- `Enrollment.findOne({ student, course })`: the first matching document. -/
def findOne (db : Store) (student course : String) : Option Enrollment :=
  db.enrollments.find? fun e => e.student == student && e.course == course

/-- `new Enrollment({ student, course })`: schema defaults `progress: 0`,
`enrolledAt: Date.now`. -/
def newEnrollment (env : Env) (student course : String) : Enrollment :=
  { _id := env.freshId, student := student, course := course, progress := 0,
    enrolledAt := env.now }

/-- `enrollment.save()` of a new document: it is added to the collection. -/
def save (db : Store) (doc : Enrollment) : Store :=
  { db with enrollments := db.enrollments ++ [doc] }

/-- `Course.findById(id)`. -/
def findById (db : Store) (id : String) : Option Course :=
  db.courses.find? fun c => c._id == id

/-- `populate('course')` on one enrollment. -/
def populateCourse (db : Store) (e : Enrollment) : EnrollmentWithCourse :=
  { _id := e._id, student := e.student, course := findById db e.course,
    progress := e.progress, enrolledAt := e.enrolledAt }

/-- `populate('student', 'name email')` on one enrollment. -/
def populateStudent (db : Store) (e : Enrollment) : EnrollmentWithStudent :=
  { _id := e._id
    student := (db.users.find? fun u => u._id == e.student).map
      fun u => ⟨u._id, u.name, u.email⟩
    course := e.course, progress := e.progress, enrolledAt := e.enrolledAt }

/-- The `catch` block of every handler:
`res.status(500).json({ message: 'Server error' })`. -/
def serverError : Response := ⟨500, .message "Server error"⟩

/-- `enrollCourse` (lines 4-30). The destructuring of `req.body` is outside
the `try`; every store call is inside it. -/
def enrollCourse (ft : Faults) (env : Env) (db : Store) (req : Req) :
    Except JsError Result :=
  match req.body with
  | none => .error .typeError
  | some body =>
    let courseId := body.courseId
    if ft.enrollmentFindOne then
      .ok ⟨db, [serverError], [⟨.enrollmentFindOne, true⟩]⟩
    else
      match findOne db req.user.userId courseId with
      | some _ =>
        .ok ⟨db, [⟨400, .message "Already enrolled"⟩],
          [⟨.enrollmentFindOne, false⟩]⟩
      | none =>
        let enrollment := newEnrollment env req.user.userId courseId
        if ft.enrollmentSave then
          .ok ⟨db, [serverError],
            [⟨.enrollmentFindOne, false⟩, ⟨.enrollmentSave, true⟩]⟩
        else
          .ok ⟨save db enrollment, [⟨201, .enrollment enrollment⟩],
            [⟨.enrollmentFindOne, false⟩, ⟨.enrollmentSave, false⟩]⟩

/-- `getStudentEnrollments` (lines 32-40). -/
def getStudentEnrollments (ft : Faults) (db : Store) (req : Req) :
    Except JsError Result :=
  if ft.enrollmentFind then
    .ok ⟨db, [serverError], [⟨.enrollmentFind, true⟩]⟩
  else
    let enrollments :=
      (db.enrollments.filter fun e => e.student == req.user.userId).map
        (populateCourse db)
    .ok ⟨db, [⟨200, .studentEnrollments enrollments⟩],
      [⟨.enrollmentFind, false⟩]⟩

/-- `getCourseEnrollments` (lines 42-56). -/
def getCourseEnrollments (ft : Faults) (db : Store) (req : Req) :
    Except JsError Result :=
  if ft.courseFindById then
    .ok ⟨db, [serverError], [⟨.courseFindById, true⟩]⟩
  else
    let course := findById db req.params.courseId
    if course.isNone || course.any (fun c => c.tutor != req.user.userId) then
      .ok ⟨db, [⟨403, .message "Unauthorized"⟩], [⟨.courseFindById, false⟩]⟩
    else if ft.enrollmentFind then
      .ok ⟨db, [serverError],
        [⟨.courseFindById, false⟩, ⟨.enrollmentFind, true⟩]⟩
    else
      let enrollments :=
        (db.enrollments.filter fun e => e.course == req.params.courseId).map
          (populateStudent db)
      .ok ⟨db, [⟨200, .courseEnrollments enrollments⟩],
        [⟨.courseFindById, false⟩, ⟨.enrollmentFind, false⟩]⟩

/-- No store operation rejects. -/
def noFaults : Faults := ⟨false, false, false, false⟩

/-- A store with one course (tutor `t1`), two users and no enrollment, used in
examples. -/
def sampleStore : Store :=
  { enrollments := []
    courses := [⟨"c1", "Algebra", "Groups and rings", none, "t1", [], 0⟩]
    users := [⟨"s1", "Ann", "ann@example.org"⟩, ⟨"t1", "Tom", "tom@example.org"⟩]
    notifications := [] }

/-- The values mongoose supplies in examples. -/
def sampleEnv : Env := ⟨"e1", 1000⟩

/-- A request by `userId` with body `{ courseId }` and the same id as route
parameter, used in examples. -/
def sampleReq (userId courseId : String) : Req :=
  ⟨⟨userId⟩, some ⟨courseId⟩, ⟨courseId⟩⟩

end enrollmentController

namespace Js

/-- `Array.prototype.splice(start, deleteCount, ...items)` for non-negative
integer arguments: `start` and `deleteCount` are clamped to the array; returns
the array afterwards and the removed elements. -/
def splice {α : Type} (xs : List α) (start deleteCount : Nat) (items : List α) :
    List α × List α :=
  let s := min start xs.length
  let dc := min deleteCount (xs.length - s)
  (xs.take s ++ items ++ xs.drop (s + dc), (xs.drop s).take dc)

end Js

namespace Client

/-- A rejected request as the `catch` blocks see it: `error.response?.status`
and `error.response?.data?.message`. -/
structure ApiError where
  status : Option Nat
  message : Option String
  deriving DecidableEq, Repr

/-- Requests the pages send through `courseApi` and `api`. A `File` is
represented by its name. -/
inductive ApiCall where
  | deleteVideo (courseId : String) (videoId : String)
  | generateTranscript (courseId : String) (videoId : String)
  | createCourse (title : String) (description : String)
      (thumbnail : Option String)
  | updateCourse (id : String) (title : String) (description : String)
      (thumbnail : Option String)
  | reorderVideos (id : String) (videoIds : List String)
  | enrollCourse (courseId : String)
  deriving DecidableEq, Repr

/-- The course reference of a notification (`notification.course._id`). -/
structure CourseRef where
  _id : String
  deriving DecidableEq, Repr

/-- A notification as `GET /api/notifications` returns it; the dashboard
reads `_id`, `read`, `type`, `course`, `message` and `createdAt`. -/
structure Notification where
  _id : String
  type : String
  message : String
  course : Option CourseRef
  read : Bool
  createdAt : String
  deriving DecidableEq, Repr

end Client

namespace CourseDetailsPage

open Client

/-- `handleDeleteVideo` (lines 166-196), run to completion with the outcome
`res` of `courseApi.deleteVideo`; `confirmed` is the answer of
`window.confirm`. Returns the next state and the requests sent. On success
`setCourse` filters the videos, and when the deleted video was the selected
one `setSelectedVideo` reads `course.videos` of the handler's closure, the
list before the deletion; the new `course` object reruns the Socket.IO
effect. The result is `none` when `course` is null (the updater reads
`videos` of null). -/
def handleDeleteVideo (p : State) (confirmed : Bool) (videoId : String)
    (res : Except ApiError Unit) : Option (State × List ApiCall) :=
  if !confirmed then some (p, [])
  else
    match res with
    | .error _ => some (p, [.deleteVideo p.id videoId])
    | .ok _ =>
      match p.course with
      | none => none
      | some course =>
        let p1 :=
          { p with
            course := some
              { course with
                videos := course.videos.filter fun video => video._id != videoId } }
        let p2 :=
          if p.selectedVideo.map (fun v => v._id) == some videoId then
            { p1 with
              selectedVideo :=
                if course.videos.length > 1 then course.videos.head? else none }
          else p1
        some (socketEffect p2, [.deleteVideo p.id videoId])

/-- The part of `handleGenerateTranscript` after the `await` (lines 135-162),
for the `selectedVideo` of the handler's closure and the outcome `res` of the
request (the returned transcript): on success `setCourse` maps the videos,
`setSelectedVideo` updates the previous selected video, and the new `course`
object reruns the Socket.IO effect; in every case the `finally` clears
`isGeneratingTranscript`. The result is `none` when an updater finds `course`
or the selected video null. -/
def generateTranscript_settle (p : State) (selectedVideo : Video)
    (res : Except ApiError String) : Option State :=
  match res with
  | .error _ => some { p with isGeneratingTranscript := false }
  | .ok newTranscript =>
    match p.course, p.selectedVideo with
    | some course, some prevVideo =>
      some (socketEffect
        { p with
          course := some
            { course with
              videos := course.videos.map fun video =>
                if video._id == selectedVideo._id then
                  { video with transcript := newTranscript }
                else video }
          selectedVideo := some { prevVideo with transcript := newTranscript }
          isGeneratingTranscript := false })
    | _, _ => none

/-- `handleGenerateTranscript` (lines 129-163), run to completion with the
outcome `res` of the request: nothing when there is no selected video or a
generation is in progress; otherwise `setIsGeneratingTranscript(true)`, the
`POST /courses/:id/videos/:videoId/transcript` request, then the part after
the `await`. Returns the next state and the requests sent. -/
def handleGenerateTranscript (p : State) (res : Except ApiError String) :
    Option (State × List ApiCall) :=
  match p.selectedVideo with
  | none => some (p, [])
  | some selectedVideo =>
    if p.isGeneratingTranscript then some (p, [])
    else
      (generateTranscript_settle { p with isGeneratingTranscript := true }
        selectedVideo res).map
        fun q => (q, [ApiCall.generateTranscript p.id selectedVideo._id])

/-- Two videos, used in examples. -/
def sampleVideo1 : Video := ⟨"v1", "Intro", "uploads/intro.mp4", "", 0⟩

/-- The second example video. -/
def sampleVideo2 : Video := ⟨"v2", "Groups", "uploads/groups.mp4", "", 1⟩

/-- A loaded page showing a course with the two example videos: the course
and an empty history have arrived and the socket has connected. `fetchData`
has selected the first video. -/
def samplePage : State :=
  run [.courseResponse { sampleCourse with videos := [sampleVideo1, sampleVideo2] },
      .connect 0, .messagesResponse []]
    (State.init "c1" (some sampleUser))

end CourseDetailsPage

namespace EditCoursePage

open Client

/-- The `newVideo` cell: a title and a chosen file. -/
structure NewVideo where
  title : String
  file : Option String
  deriving DecidableEq, Repr

/-- The state of the component: the route parameter `id` and the `useState`
cells. -/
structure State where
  id : String
  course : Option Course
  title : String
  description : String
  thumbnail : Option String
  thumbnailPreview : Option String
  videos : List Video
  newVideo : NewVideo
  loadingCourse : Bool
  savingCourse : Bool
  uploadingVideo : Bool
  deriving DecidableEq, Repr

/-- The state on mount for route parameter `id`. -/
def State.init (id : String) : State :=
  { id := id, course := none, title := "", description := "",
    thumbnail := none, thumbnailPreview := none, videos := [],
    newVideo := ⟨"", none⟩, loadingCourse := true, savingCourse := false,
    uploadingVideo := false }

/-- `handleSaveCourse` (lines 86-120), run to completion with the outcome of
`courseApi.updateCourse`: with an empty trimmed title or description only a
toast is shown; otherwise the request carries the trimmed title and
description (and the thumbnail when one is chosen), and `savingCourse` is set
and cleared again. Returns the next state and the requests sent. -/
def handleSaveCourse (s : State) (_res : Except ApiError Unit) :
    State × List ApiCall :=
  if !Js.truthy (Js.trim s.title) || !Js.truthy (Js.trim s.description) then
    (s, [])
  else
    ({ s with savingCourse := false },
      [.updateCourse s.id (Js.trim s.title) (Js.trim s.description) s.thumbnail])

/-- `handleDeleteVideo` (lines 157-173), run to completion with the outcome
`res` of `courseApi.deleteVideo`. -/
def handleDeleteVideo (s : State) (videoId : String)
    (res : Except ApiError Unit) : State × List ApiCall :=
  match res with
  | .ok _ =>
    ({ s with videos := s.videos.filter fun video => video._id != videoId },
      [.deleteVideo s.id videoId])
  | .error _ => (s, [.deleteVideo s.id videoId])

/-- The drop result of the drag-and-drop library: `result.source.index` and,
when the item was dropped on the list, `result.destination.index`. -/
structure DropResult where
  source : Nat
  destination : Option Nat
  deriving DecidableEq, Repr

/-- `handleDragEnd` (lines 175-191): nothing without a destination; otherwise
the dragged item is spliced out and spliced in at the destination,
`setVideos(items)` runs before the request, and the request carries the ids
of `items` (its outcome only decides a toast). Returns the next state and the
requests sent; `none` when the source index is outside the list, where
`reorderedItem` is `undefined`. -/
def handleDragEnd (s : State) (result : DropResult) :
    Option (State × List ApiCall) :=
  match result.destination with
  | none => some (s, [])
  | some destination =>
    let cut := Js.splice s.videos result.source 1 []
    match cut.2.head? with
    | none => none
    | some reorderedItem =>
      let items := (Js.splice cut.1 destination 0 [reorderedItem]).1
      some ({ s with videos := items },
        [.reorderVideos s.id (items.map fun item => item._id)])

/-- An edit page with three videos, used in examples. -/
def samplePage : State :=
  { State.init "c1" with
    title := " Algebra ", description := "Groups and rings",
    videos := [⟨"v1", "Intro", "uploads/intro.mp4", "", 0⟩,
      ⟨"v2", "Groups", "uploads/groups.mp4", "", 1⟩,
      ⟨"v3", "Rings", "uploads/rings.mov", "", 2⟩],
    loadingCourse := false }

end EditCoursePage

namespace CreateCoursePage

open Client

/-- The state of the component: its `useState` cells. -/
structure State where
  title : String
  description : String
  thumbnail : Option String
  thumbnailPreview : Option String
  loading : Bool
  deriving DecidableEq, Repr

/-- `handleSubmit` (lines 32-71), run to completion with the outcome of
`courseApi.createCourse`: with an empty trimmed title or description only a
toast is shown; otherwise the request carries the trimmed title and
description and the thumbnail, and `loading` is set and cleared again (on
success the page navigates to the edit page). Returns the next state and the
requests sent. -/
def handleSubmit (s : State) (_res : Except ApiError String) :
    State × List ApiCall :=
  if !Js.truthy (Js.trim s.title) || !Js.truthy (Js.trim s.description) then
    (s, [])
  else
    ({ s with loading := false },
      [.createCourse (Js.trim s.title) (Js.trim s.description) s.thumbnail])

end CreateCoursePage

namespace StudentDashboard

open Client

/-- The state of the component: its `useState` cells. `unreadCount` is a
JavaScript number, here an integer. An entry of `enrolledCourses` is `none`
when it is null or undefined (an enrollment whose course was not populated, or
a `find` that found nothing). -/
structure State where
  enrolledCourses : List (Option Course)
  availableCourses : List Course
  loading : Bool
  searchTerm : String
  dropdownOpen : Bool
  notificationOpen : Bool
  notifications : List Notification
  unreadCount : Int
  deriving DecidableEq, Repr

/-- The state on mount. -/
def State.init : State :=
  { enrolledCourses := [], availableCourses := [], loading := true,
    searchTerm := "", dropdownOpen := false, notificationOpen := false,
    notifications := [], unreadCount := 0 }

/-- `handleMarkAsRead` (lines 112-127), run to completion with the outcome
`res` of `PUT /api/notifications/:id/read`: on success the notifications with
that `_id` get `read: true` and `unreadCount` is decremented; on failure only
a toast is shown. -/
def handleMarkAsRead (s : State) (notificationId : String)
    (res : Except ApiError Unit) : State :=
  match res with
  | .ok _ =>
    { s with
      notifications := s.notifications.map fun n =>
        if n._id == notificationId then { n with read := true } else n
      unreadCount := s.unreadCount - 1 }
  | .error _ => s

/-- `handleMarkAllAsRead` (lines 130-143), run to completion with the outcome
`res` of `PUT /api/notifications/read-all` (the list the server returns): on
success `setNotifications(res.data)` and `setUnreadCount(0)`; on failure only
a toast is shown. -/
def handleMarkAllAsRead (s : State) (res : Except ApiError (List Notification)) :
    State :=
  match res with
  | .ok data => { s with notifications := data, unreadCount := 0 }
  | .error _ => s

/-- The derived unread count: the number of notifications of the list with
`read = false`. -/
def unread (notifications : List Notification) : Int :=
  (notifications.filter fun n => !n.read).length

/-- A call of one of the two notification handlers, with the outcome of its
request. -/
inductive Call where
  | markAsRead (notificationId : String) (res : Except ApiError Unit)
  | markAllAsRead (res : Except ApiError (List Notification))

/-- One handler call applied to the dashboard. -/
def applyCall (s : State) : Call → State
  | .markAsRead notificationId res => handleMarkAsRead s notificationId res
  | .markAllAsRead res => handleMarkAllAsRead s res

/-- A sequence of handler calls, each run to completion before the next. -/
def runCalls (s : State) (calls : List Call) : State :=
  calls.foldl applyCall s

/-- Calls as the page and a server that marks everything read produce them: a
successful `handleMarkAsRead` is made on the `_id` of exactly one unread
notification of the list (the `onClick` guard `!notification.read`), and a
successful `handleMarkAllAsRead` receives a list with no unread notification;
failed calls are unrestricted. -/
def Guarded (s : State) : Call → Prop
  | .markAsRead notificationId (.ok _) =>
    (s.notifications.filter fun n => n._id == notificationId && !n.read).length = 1
  | .markAsRead _ (.error _) => True
  | .markAllAsRead (.ok data) => unread data = 0
  | .markAllAsRead (.error _) => True

/-- Every call of the sequence is guarded in the state it is made in. -/
def GuardedSeq : State → List Call → Prop
  | _, [] => True
  | s, c :: cs => Guarded s c ∧ GuardedSeq (applyCall s c) cs

/-- A notification, used in examples. -/
def sampleNotification (id : String) (read : Bool) : Notification :=
  ⟨id, "enrollment", "You are enrolled", some ⟨"c1"⟩, read, "2024-01-01"⟩

/-- A loaded dashboard with the given notifications and unread count, used in
examples. -/
def sampleDashboard (notifications : List Notification) (unreadCount : Int) :
    State :=
  { State.init with
    notifications := notifications, unreadCount := unreadCount, loading := false }

end StudentDashboard

namespace coursesRouter

/-- HTTP methods. -/
inductive Method where
  | GET | HEAD | POST | PUT | DELETE | PATCH | OPTIONS
  deriving DecidableEq, Repr

/-- A segment of a route path: a literal or a `:name` parameter. -/
inductive Seg where
  | lit (s : String)
  | param (name : String)
  deriving DecidableEq, Repr

/-- The handlers imported from `controllers/courseController.js`. -/
inductive Controller where
  | createCourse | uploadVideo | updateCourse | reorderVideos | deleteVideo
  | getTutorCourses | getAllCourses | getCourse | deleteCourse
  deriving DecidableEq, Repr

/-- The functions the router registers: the `authenticate` middleware,
`upload.single(field)`, and the controllers. -/
inductive Fn where
  | authenticate
  | upload (field : String)
  | controller (c : Controller)
  deriving DecidableEq, Repr

/-- A route: `router.METHOD(path, ...stack)`. -/
structure Route where
  method : Method
  path : List Seg
  stack : List Fn
  deriving DecidableEq, Repr

/-- A layer of the router, in registration order: `router.use(fn)` or a
route. -/
inductive Layer where
  | use (fn : Fn)
  | route (r : Route)
  deriving DecidableEq, Repr

/-- A request as the router sees it: the method and the segments of the path
below the mount point. -/
structure Request where
  method : Method
  path : List String
  deriving DecidableEq, Repr

/-- The nine routes of `routes/courses.js` (lines 20-28), in order. -/
def routes : List Route :=
  [ ⟨.POST, [], [.upload "thumbnail", .controller .createCourse]⟩,
    ⟨.POST, [.param "courseId", .lit "videos"],
      [.upload "video", .controller .uploadVideo]⟩,
    ⟨.PUT, [.param "courseId"], [.upload "thumbnail", .controller .updateCourse]⟩,
    ⟨.PUT, [.param "courseId", .lit "videos", .lit "reorder"],
      [.controller .reorderVideos]⟩,
    ⟨.DELETE, [.param "courseId", .lit "videos", .param "videoId"],
      [.controller .deleteVideo]⟩,
    ⟨.DELETE, [.param "courseId"], [.controller .deleteCourse]⟩,
    ⟨.GET, [.lit "tutor"], [.controller .getTutorCourses]⟩,
    ⟨.GET, [], [.controller .getAllCourses]⟩,
    ⟨.GET, [.param "id"], [.controller .getCourse]⟩ ]

/-- The router of `routes/courses.js`: `router.use(authenticate)` (line 18),
then the nine routes. -/
def router : List Layer :=
  .use .authenticate :: routes.map .route

/-- Run the stack of a matched route: each function runs in turn as long as
the previous one called `next()`. Returns the functions run and whether the
last one called `next()`. -/
def runStack (passes : Fn → Request → Bool) (req : Request) :
    List Fn → List Fn × Bool
  | [] => ([], true)
  | f :: fs =>
    if passes f req then
      ((f :: (runStack passes req fs).1), (runStack passes req fs).2)
    else ([f], false)

/-- Express dispatch over the layers in registration order: a `use` layer
runs for every request, a route layer when `matchRoute` says it matches; the
walk goes on only while each function run calls `next()`. `passes f req` says
whether `f` calls `next()` on `req`. Returns the functions run, in order. -/
def dispatch (matchRoute : Route → Request → Bool)
    (passes : Fn → Request → Bool) (req : Request) : List Layer → List Fn
  | [] => []
  | .use f :: ls =>
    if passes f req then f :: dispatch matchRoute passes req ls else [f]
  | .route r :: ls =>
    if matchRoute r req then
      if (runStack passes req r.stack).2 then
        (runStack passes req r.stack).1 ++ dispatch matchRoute passes req ls
      else (runStack passes req r.stack).1
    else dispatch matchRoute passes req ls

/-- Whether a path pattern matches the segments of a request path: literals
match themselves, a parameter any segment. -/
def matchPath : List Seg → List String → Bool
  | [], [] => true
  | .lit s :: ps, x :: xs => s == x && matchPath ps xs
  | .param _ :: ps, _ :: xs => matchPath ps xs
  | _, _ => false

/-- Route matching by method and path; a `GET` route also serves `HEAD`. -/
def matchRoute (r : Route) (req : Request) : Bool :=
  (r.method == req.method || (r.method == .GET && req.method == .HEAD)) &&
    matchPath r.path req.path

/-- Middleware behaviour in examples: `authenticate` calls `next()` exactly
when `authed`; `upload` always does; controllers respond and never do. -/
def samplePasses (authed : Bool) : Fn → Request → Bool
  | .authenticate, _ => authed
  | .upload _, _ => true
  | .controller _, _ => false

end coursesRouter

namespace Js

/-- `String.prototype.includes(search)`: whether `search` occurs in `s` as a
contiguous run. -/
def includes (s search : String) : Bool :=
  decide (List.IsInfix search.data s.data)

/-- Lower-casing of the ASCII letters only. It agrees with
`String.prototype.toLowerCase` on ASCII strings and stands in for it in
examples; the handlers take `toLowerCase` as an argument. -/
def toLowerCaseAscii (s : String) : String :=
  String.mk (s.data.map Char.toLower)

/-- Node's POSIX `path.extname`: the part of the last path component from its
last dot on; empty when the component has no dot, starts with its only dot,
or is `..`. It stands in for `path.extname` in examples. -/
def posixExtname (path : String) : String :=
  let trimmed := path.data.reverse.dropWhile (fun c => c == '/')
  let baseRev := trimmed.takeWhile (fun c => c != '/')
  let extRev := baseRev.takeWhile (fun c => c != '.')
  if extRev.length == baseRev.length then ""
  else if extRev.length + 1 == baseRev.length then ""
  else if baseRev == ['.', '.'] then ""
  else String.mk ('.' :: extRev.reverse)

end Js

namespace StudentDashboard

open Client

/-- An enrollment as `enrollmentApi.getStudentEnrollments` returns it, with
its course populated; `course` is `none` (null) when the referenced course is
not in the store. The page reads `course`. -/
structure EnrollmentItem where
  _id : String
  course : Option Course
  deriving DecidableEq, Repr

/-- `fetchData` (lines 39-71), run to completion with the outcomes of its four
requests, which are awaited in turn; the first rejected one ends the `try`,
and the `finally` clears `loading`. `setEnrolledCourses` runs before the
course request; after it, `enrolledCoursesData.map(course => course._id)`
throws a `TypeError` when a course is null, which also ends the `try`, before
`setAvailableCourses`. -/
def fetchData (s : State)
    (enrollmentsRes : Except ApiError (List EnrollmentItem))
    (allCoursesRes : Except ApiError (List Course))
    (notificationsRes : Except ApiError (List Notification))
    (unreadCountRes : Except ApiError Int) : State :=
  match enrollmentsRes with
  | .error _ => { s with loading := false }
  | .ok enrollments =>
    let enrolledCoursesData := enrollments.map fun enrollment => enrollment.course
    let s1 := { s with enrolledCourses := enrolledCoursesData }
    match allCoursesRes with
    | .error _ => { s1 with loading := false }
    | .ok allCourses =>
      if enrolledCoursesData.any fun course => course.isNone then
        { s1 with loading := false }
      else
        let enrolledCourseIds :=
          enrolledCoursesData.filterMap fun course => course.map fun c => c._id
        let availableCoursesData :=
          allCourses.filter fun course => !enrolledCourseIds.contains course._id
        let s2 := { s1 with availableCourses := availableCoursesData }
        match notificationsRes with
        | .error _ => { s2 with loading := false }
        | .ok notifications =>
          let s3 := { s2 with notifications := notifications }
          match unreadCountRes with
          | .error _ => { s3 with loading := false }
          | .ok count => { s3 with unreadCount := count, loading := false }

/-- `handleEnroll` (lines 77-97), run to completion with the outcome `res` of
`enrollmentApi.enrollCourse`: on success what `find` returns for the id (the
first available course with it, or `undefined`) is appended to
`enrolledCourses` and the courses with that id are filtered out of
`availableCourses`; on failure only a toast is shown. Returns the next state
and the requests sent. -/
def handleEnroll (s : State) (courseId : String)
    (res : Except ApiError Unit) : State × List ApiCall :=
  match res with
  | .error _ => (s, [.enrollCourse courseId])
  | .ok _ =>
    let course := s.availableCourses.find? fun c => c._id == courseId
    ({ s with
        enrolledCourses := s.enrolledCourses ++ [course]
        availableCourses := s.availableCourses.filter fun c => c._id != courseId },
      [.enrollCourse courseId])

/-- A sequence of `handleEnroll` calls, each with its course id and the
outcome of its request, each run to completion before the next. -/
def runEnrolls (s : State) (calls : List (String × Except ApiError Unit)) :
    State :=
  calls.foldl (fun st call => (handleEnroll st call.1 call.2).1) s

/-- `filteredAvailableCourses` (lines 146-149); `toLowerCase` is
`String.prototype.toLowerCase`. -/
def filteredAvailableCourses (toLowerCase : String → String) (s : State) :
    List Course :=
  s.availableCourses.filter fun course =>
    Js.includes (toLowerCase course.title) (toLowerCase s.searchTerm) ||
    Js.includes (toLowerCase course.description) (toLowerCase s.searchTerm)

/-- No course `_id` is both in `enrolledCourses` and in `availableCourses`. -/
def DisjointIds (s : State) : Prop :=
  ∀ e ∈ s.enrolledCourses, ∀ c, e = some c →
    ∀ a ∈ s.availableCourses, c._id ≠ a._id

/-- A course, used in examples. -/
def sampleCourse (id title description : String) : Course :=
  ⟨id, title, description, none, ⟨"t1", "Tutor"⟩, []⟩

/-- Three courses, used in examples. -/
def sampleCourses : List Course :=
  [sampleCourse "c1" "Linear Algebra" "Vectors and matrices",
    sampleCourse "c2" "Topology" "Open sets",
    sampleCourse "c3" "Logic" "Proofs in ALGEBRA and beyond"]

end StudentDashboard

namespace transcriptGenerator

/-- The `fileData` part of the request. -/
structure FileData where
  mimeType : String
  fileUri : String
  deriving DecidableEq, Repr

/-- The request passed to `model.generateContent` (lines 29-49): the prompt
text, the file part, and `generationConfig.audioTimestamp`. -/
structure Request where
  text : String
  fileData : FileData
  audioTimestamp : Bool
  deriving DecidableEq, Repr

/-- The library functions `generateTranscript` calls: `path.extname`,
`String.prototype.toLowerCase`, and `path.resolve(__dirname, '..', ·)`. -/
structure Lib where
  extname : String → String
  toLowerCase : String → String
  resolve : String → String

/-- The request built in lines 19-49 for `videoUrl`. -/
def request (lib : Lib) (videoUrl : String) : Request :=
  let filePath := lib.resolve videoUrl
  let ext := lib.toLowerCase (lib.extname videoUrl)
  let mimeType := if ext == ".mp4" then "video/mp4" else "video/quicktime"
  { text := "Transcribe this video with timecodes and speaker labels. Format as: [MM:SS] Speaker: Text"
    fileData := { mimeType := mimeType, fileUri := "file://" ++ filePath }
    audioTimestamp := true }

/-- `generateTranscript` (lines 10-60) with the outcome of `fs.readFile` and
the behaviour of `model.generateContent` (the response text, or the message
of the error thrown). Returns the transcript or the message of the error
thrown, and the requests sent to the model. -/
def generateTranscript (lib : Lib) (videoUrl : String)
    (readFile : Except String Unit)
    (generateContent : Request → Except String String) :
    Except String String × List Request :=
  match readFile with
  | .error message => (.error ("Failed to generate transcript: " ++ message), [])
  | .ok _ =>
    match generateContent (request lib videoUrl) with
    | .error message =>
      (.error ("Failed to generate transcript: " ++ message), [request lib videoUrl])
    | .ok transcript =>
      (.ok (if Js.truthy transcript then transcript else "No transcription generated"),
        [request lib videoUrl])

/-- Library functions used in examples: POSIX `extname`, ASCII lower-casing,
and resolution against the directory `/srv`. -/
def sampleLib : Lib :=
  { extname := Js.posixExtname, toLowerCase := Js.toLowerCaseAscii,
    resolve := fun videoUrl => "/srv/" ++ videoUrl }

end transcriptGenerator

namespace enrollmentController

open Server

/-- A store in which student `s1` is already enrolled in course `c1`, used in
examples. -/
def enrolledStore : Store :=
  { sampleStore with enrollments := [⟨"e0", "s1", "c1", 0, 500⟩] }

end enrollmentController

/-! ## Theorems: `handleSendMessage` and the `message` handler -/

namespace CourseDetailsPage

open Client

/-- C1: when the trimmed input is empty, or there is no socket, or no
logged-in user, `handleSendMessage` makes no `socket.emit` call and returns the
state it was given (input text, messages list and every socket's emitted
events unchanged); the same holds for the `submit` step of the page. -/
theorem handleSendMessage_blank_noop (p : State)
    (h : Js.trim p.newMessage = "" ∨ p.socket = none ∨ p.user = none) :
    handleSendMessage p = (p, []) ∧ step p .submit = p := by
  have key : handleSendMessage p = (p, []) := by
    unfold handleSendMessage
    rcases h with h | h | h
    · cases p.socket <;> cases p.user <;> simp [h, Js.truthy]
    · simp [h]
    · cases p.socket <;> simp [h]
  exact ⟨key, by simp [step, key, recordEmits]⟩

/-- Witness for C1: a page whose input is three blanks. -/
theorem handleSendMessage_blank_noop_witness :
    handleSendMessage
        { State.init "c1" (some ⟨"u1", "student"⟩) with
          newMessage := "   ", socket := some 0 }
      = ({ State.init "c1" (some ⟨"u1", "student"⟩) with
            newMessage := "   ", socket := some 0 }, []) :=
  (handleSendMessage_blank_noop _ (Or.inl (by decide))).1

/-- C2: with a socket and a logged-in user present and a non-empty trimmed
input, `handleSendMessage` makes exactly one `socket.emit` call, a
`sendMessage` event on the page's socket with payload
`{courseId: id, userId: user._id, message: trim(input)}`, and the resulting
state is the given one with the input text reset to the empty string. -/
theorem handleSendMessage_emits_once (p : State) (sock : Nat) (user : AuthUser)
    (hs : p.socket = some sock) (hu : p.user = some user)
    (ht : Js.trim p.newMessage ≠ "") :
    handleSendMessage p =
      ({ p with newMessage := "" },
        [⟨sock, .sendMessage p.id user._id (Js.trim p.newMessage)⟩]) := by
  unfold handleSendMessage
  simp [hs, hu, Js.truthy, ht]

/-- Witness for C2: the input `"  hi "` is sent as `"hi"`. -/
theorem handleSendMessage_emits_once_witness :
    handleSendMessage
        { State.init "c1" (some ⟨"u1", "student"⟩) with
          newMessage := "  hi ", socket := some 0 }
      = ({ State.init "c1" (some ⟨"u1", "student"⟩) with
            newMessage := "", socket := some 0 },
          [⟨0, .sendMessage "c1" "u1" "hi"⟩]) :=
  handleSendMessage_emits_once
    { State.init "c1" (some ⟨"u1", "student"⟩) with
      newMessage := "  hi ", socket := some 0 }
    0 ⟨"u1", "student"⟩ rfl rfl (by decide)

/-- The submit path leaves the messages list alone: `handleSendMessage` never
changes it, whatever the input, and neither does the `submit` step of the
page; the list grows by the received message when a `message` event is
handled. -/
theorem handleSendMessage_keeps_messages (p : State) :
    (handleSendMessage p).1.messages = p.messages ∧
    (step p .submit).messages = p.messages ∧
    ∀ m, (step p (.message m)).messages = p.messages ++ [m] := by
  have key : (handleSendMessage p).1.messages = p.messages := by
    unfold handleSendMessage
    split
    · split <;> rfl
    · rfl
  exact ⟨key, by simpa [step] using key, fun m => rfl⟩

/-- C4: the `message` handler is append-only: the new list is the previous
list followed by the received message, one longer, with every earlier message
at its position and the received message last. -/
theorem onMessage_append_only (prev : List ChatMessage) (m : ChatMessage) :
    onMessage prev m = prev ++ [m] ∧
    (onMessage prev m).length = prev.length + 1 ∧
    (∀ i, i < prev.length → (onMessage prev m)[i]? = prev[i]?) ∧
    (onMessage prev m)[prev.length]? = some m := by
  refine ⟨rfl, by simp [onMessage], ?_, by simp [onMessage]⟩
  intro i hi
  simp [onMessage, List.getElem?_append_left hi]

end CourseDetailsPage

/-! ## Theorems: the page as a state machine -/

namespace CourseDetailsPage

open Client

theorem run_append (a b : List Event) (p : State) :
    run (a ++ b) p = run b (run a p) := by
  simp [run, List.foldl_append]

theorem run_cons (e : Event) (evs : List Event) (p : State) :
    run (e :: evs) p = run evs (step p e) := rfl

theorem socketCleanup_fields (p : State) :
    (socketCleanup p).messages = p.messages ∧ (socketCleanup p).id = p.id ∧
    (socketCleanup p).course = p.course := by
  unfold socketCleanup
  split <;> simp

theorem socketSetup_fields (p : State) :
    (socketSetup p).messages = p.messages ∧ (socketSetup p).id = p.id ∧
    (socketSetup p).course = p.course := by
  unfold socketSetup
  split <;> simp

theorem socketEffect_fields (p : State) :
    (socketEffect p).messages = p.messages ∧ (socketEffect p).id = p.id ∧
    (socketEffect p).course = p.course := by
  unfold socketEffect
  obtain ⟨h1, h2, h3⟩ := socketSetup_fields (socketCleanup p)
  obtain ⟨k1, k2, k3⟩ := socketCleanup_fields p
  exact ⟨h1.trans k1, h2.trans k2, h3.trans k3⟩

theorem fetchData_course_fields (p : State) (data : Course) :
    (fetchData_course p data).messages = p.messages ∧
    (fetchData_course p data).id = p.id ∧
    (fetchData_course p data).course = some data ∧
    (fetchData_course p data).sockets = p.sockets ∧
    (fetchData_course p data).effectSocket = p.effectSocket := by
  unfold fetchData_course
  split <;> simp

theorem handleSendMessage_fields (p : State) :
    (handleSendMessage p).1.messages = p.messages ∧
    (handleSendMessage p).1.id = p.id ∧
    (handleSendMessage p).1.course = p.course ∧
    (handleSendMessage p).1.sockets = p.sockets ∧
    (handleSendMessage p).1.effectSocket = p.effectSocket := by
  unfold handleSendMessage
  split
  · split <;> simp
  · simp

/-- An event that is not a history response leaves the messages list alone,
except a `message` event, which appends its message. -/
theorem step_messages (p : State) (e : Event) (h : e.isHistory = false) :
    (step p e).messages = p.messages ++ received [e] := by
  cases e with
  | courseResponse data =>
    simp [step, received, (socketEffect_fields _).1,
      (fetchData_course_fields p data).1]
  | messagesResponse data => simp [Event.isHistory] at h
  | fetchError => simp [step, received, fetchData_catch]
  | connect sid => simp [step, received, onConnect]
  | reconnect sid => simp [step, received, onConnect]
  | message m => simp [step, received, onMessage]
  | routeChange newId =>
    simp only [step, received]
    split
    · simp
    · simp [(socketEffect_fields _).1]
  | input text => simp [step, received]
  | submit => simp [step, received, (handleSendMessage_fields p).1]

theorem received_cons (e : Event) (evs : List Event) :
    received (e :: evs) = received [e] ++ received evs := by
  cases e <;> simp [received]

theorem run_messages_no_history (evs : List Event) (p : State)
    (h : ∀ e ∈ evs, e.isHistory = false) :
    (run evs p).messages = p.messages ++ received evs := by
  induction evs generalizing p with
  | nil => simp [run, received]
  | cons e evs ih =>
    rw [run_cons, ih _ (fun x hx => h x (List.mem_cons_of_mem _ hx)),
      step_messages p e (h e (List.mem_cons_self _ _)), received_cons e evs,
      List.append_assoc]

/-- C5, amended: applying a history response replaces the messages list by
the fetched history, whatever was received before; from then on, as long as no
further history response arrives, every `message` event is appended once, in
arrival order, so the list is the history followed by the messages received
after it. -/
theorem feed_is_history_then_received (p : State) (pre : List Event)
    (history : List ChatMessage) (evs : List Event)
    (h : ∀ e ∈ evs, e.isHistory = false) :
    (run (pre ++ Event.messagesResponse history :: evs) p).messages =
      history ++ received evs := by
  rw [run_append, run_cons, run_messages_no_history evs _ h]
  rfl

/-- Witness for C5 (amended): history `[m]`, then typing and one more
`message` event. -/
theorem feed_is_history_then_received_witness :
    (run ([Event.connect 0] ++ Event.messagesResponse [sampleMessage] ::
        [Event.input "x", Event.message sampleMessage])
      (State.init "c1" (some sampleUser))).messages =
      [sampleMessage] ++ received [Event.input "x", Event.message sampleMessage] :=
  feed_is_history_then_received _ [Event.connect 0] [sampleMessage]
    [Event.input "x", Event.message sampleMessage] (by decide)

/-- C5 as stated fails. With the socket joined, (1) a message that is in the
fetched history and is also delivered as a `message` event after the history
response is listed twice; (2) a message delivered as a `message` event before
the history response is applied is dropped when the history (fetched before
the message was stored) replaces the list. -/
theorem feed_duplicates_and_drops :
    (run [.courseResponse sampleCourse, .connect 0,
          .messagesResponse [sampleMessage], .message sampleMessage]
        (State.init "c1" (some sampleUser))).messages
      = [sampleMessage, sampleMessage] ∧
    (run [.courseResponse sampleCourse, .connect 0,
          .message sampleMessage, .messagesResponse []]
        (State.init "c1" (some sampleUser))).messages = [] := by
  decide

theorem recordEmits_length (sockets : List SocketRec) (emits : List Emit) :
    (recordEmits sockets emits).length = sockets.length := by
  unfold recordEmits
  induction emits generalizing sockets with
  | nil => rfl
  | cons e es ih => simp [List.foldl_cons, ih]

theorem socketCleanup_sockets_length (p : State) :
    (socketCleanup p).sockets.length = p.sockets.length := by
  unfold socketCleanup
  split <;> simp

/-- The course cell after a step: a course response stores its data, every
other event leaves the cell alone. -/
theorem step_course (p : State) (e : Event) :
    (step p e).course = p.course ∨
      ∃ data, e = Event.courseResponse data ∧ (step p e).course = some data := by
  cases e with
  | courseResponse data =>
    right
    exact ⟨data, rfl, by
      simp [step, (socketEffect_fields _).2.2,
        (fetchData_course_fields p data).2.2.1]⟩
  | routeChange newId =>
    left
    simp only [step]
    split
    · rfl
    · simp [(socketEffect_fields _).2.2]
  | submit => left; simp [step, (handleSendMessage_fields p).2.2.1]
  | messagesResponse data => left; rfl
  | fetchError => left; rfl
  | connect sid => left; rfl
  | reconnect sid => left; rfl
  | message m => left; rfl
  | input text => left; rfl

theorem socketEffect_sockets_of_no_course (p : State) (h : p.course = none) :
    (socketEffect p).sockets.length = p.sockets.length := by
  have hc : (socketCleanup p).course = none := by
    rw [(socketCleanup_fields p).2.2, h]
  unfold socketEffect socketSetup
  rw [hc]
  exact socketCleanup_sockets_length p

/-- A step creates sockets only in a state whose course cell is filled. -/
theorem step_sockets_need_course (p : State) (e : Event)
    (hp : p.sockets ≠ [] → p.course.isSome = true)
    (hs : (step p e).sockets ≠ []) : (step p e).course.isSome = true := by
  cases e with
  | courseResponse data =>
    simp [step, (socketEffect_fields _).2.2,
      (fetchData_course_fields p data).2.2.1]
  | routeChange newId =>
    simp only [step] at hs ⊢
    split at hs
    · rename_i heq
      simp only [heq, if_true]
      exact hp hs
    · rename_i hne
      simp only [hne, if_false]
      rw [(socketEffect_fields _).2.2]
      cases hc : p.course with
      | some c => rfl
      | none =>
        have hl := socketEffect_sockets_of_no_course { p with id := newId } hc
        have : p.sockets ≠ [] := by
          intro h0
          apply hs
          apply List.eq_nil_of_length_eq_zero
          rw [hl]
          simp [h0]
        have := hp this
        simp [hc] at this
  | submit =>
    have hl : (step p .submit).sockets.length = p.sockets.length := by
      simp [step, recordEmits_length, (handleSendMessage_fields p).2.2.2.1]
    have hc : (step p .submit).course = p.course := by
      simp [step, (handleSendMessage_fields p).2.2.1]
    rw [hc]
    apply hp
    intro h0
    apply hs
    apply List.eq_nil_of_length_eq_zero
    rw [hl]
    simp [h0]
  | messagesResponse data => exact hp hs
  | fetchError => exact hp hs
  | connect sid =>
    apply hp
    intro h0
    apply hs
    simp [step, onConnect, h0]
  | reconnect sid =>
    apply hp
    intro h0
    apply hs
    simp [step, onConnect, h0]
  | message m => exact hp hs
  | input text => exact hp hs

theorem run_sockets_need_course (evs : List Event) (p : State)
    (hp : p.sockets ≠ [] → p.course.isSome = true)
    (hs : (run evs p).sockets ≠ []) : (run evs p).course.isSome = true := by
  induction evs generalizing p with
  | nil => exact hp hs
  | cons e evs ih =>
    rw [run_cons] at hs ⊢
    exact ih (step p e) (step_sockets_need_course p e hp) hs

theorem run_course_from_response (evs : List Event) (p : State)
    (hs : (run evs p).course.isSome = true) :
    p.course.isSome = true ∨ ∃ data, Event.courseResponse data ∈ evs := by
  induction evs generalizing p with
  | nil => exact Or.inl hs
  | cons e evs ih =>
    rw [run_cons] at hs
    rcases ih (step p e) hs with h | ⟨data, hd⟩
    · rcases step_course p e with hc | ⟨data, he, _⟩
      · left
        rw [← hc]
        exact h
      · right
        exact ⟨data, by simp [he]⟩
    · right
      exact ⟨data, List.mem_cons_of_mem _ hd⟩

/-- C6, amended: in every run of the page, a socket exists only once the
course cell is filled, which takes a `getCourse` response stored by
`fetchData`; the Socket.IO effect is gated on the course, not on the message
history. -/
theorem socket_only_after_course (id : String) (user : Option AuthUser)
    (evs : List Event) (h : (run evs (State.init id user)).sockets ≠ []) :
    (run evs (State.init id user)).course.isSome = true ∧
    ∃ data, Event.courseResponse data ∈ evs := by
  have hc := run_sockets_need_course evs (State.init id user)
    (fun h0 => absurd rfl h0) h
  refine ⟨hc, ?_⟩
  rcases run_course_from_response evs _ hc with h0 | h1
  · simp [State.init] at h0
  · exact h1

/-- Witness for C6 (amended): after a course response and a connect the page
has a socket. -/
theorem socket_only_after_course_witness :
    (run [.courseResponse sampleCourse, .connect 0]
        (State.init "c1" (some sampleUser))).course.isSome = true ∧
    ∃ data, Event.courseResponse data ∈
      [Event.courseResponse sampleCourse, Event.connect 0] :=
  socket_only_after_course "c1" (some sampleUser)
    [.courseResponse sampleCourse, .connect 0] (by decide)

/-- C6 as stated fails. After the course response alone the socket is created
and, on connect, joins the room while no history response has been applied
(`loading` is still true, the messages list still empty); and when the history
request fails the socket is created and joined although the history is never
stored. -/
theorem socket_joined_before_history :
    (run [.courseResponse sampleCourse, .connect 0]
        (State.init "c1" (some sampleUser))).sockets
      = [⟨0, "c1", [.joinRoom "c1"], false⟩] ∧
    (run [.courseResponse sampleCourse, .connect 0]
        (State.init "c1" (some sampleUser))).loading = true ∧
    (run [.courseResponse sampleCourse, .connect 0]
        (State.init "c1" (some sampleUser))).messages = [] ∧
    (run [.courseResponse sampleCourse, .fetchError, .connect 0]
        (State.init "c1" (some sampleUser))).sockets
      = [⟨0, "c1", [.joinRoom "c1"], false⟩] ∧
    (run [.courseResponse sampleCourse, .fetchError, .connect 0]
        (State.init "c1" (some sampleUser))).messages = [] := by
  decide

theorem roomInv_init (id : String) (user : Option AuthUser) :
    RoomInv (State.init id user) := by
  constructor <;> intro r hr <;> simp [State.init] at hr

/-- After the cleanup every socket has been disconnected; what was emitted is
untouched. -/
theorem socketCleanup_spec (p : State)
    (hj : ∀ r ∈ p.sockets, ∀ c, ClientEvent.joinRoom c ∈ r.emitted → c = r.room)
    (he : ∀ r ∈ p.sockets, r.disconnected = false → p.effectSocket = some r.sid) :
    (∀ r ∈ (socketCleanup p).sockets,
      ∀ c, ClientEvent.joinRoom c ∈ r.emitted → c = r.room) ∧
    (∀ r ∈ (socketCleanup p).sockets, r.disconnected = true) := by
  unfold socketCleanup
  split
  · rename_i hn
    refine ⟨hj, fun r hr => ?_⟩
    cases hd : r.disconnected with
    | true => rfl
    | false =>
      have := he r hr hd
      rw [hn] at this
      cases this
  · rename_i s hs
    constructor
    · intro r hr c hc
      simp only [List.mem_map] at hr
      obtain ⟨r0, hr0, rfl⟩ := hr
      by_cases h : r0.sid = s
      · simp only [h, if_true] at hc ⊢
        exact hj r0 hr0 c hc
      · simp only [h, if_false] at hc ⊢
        exact hj r0 hr0 c hc
    · intro r hr
      simp only [List.mem_map] at hr
      obtain ⟨r0, hr0, rfl⟩ := hr
      by_cases h : r0.sid = s
      · simp [h]
      · simp only [h, if_false]
        cases hd : r0.disconnected with
        | true => rfl
        | false =>
          have := he r0 hr0 hd
          rw [hs] at this
          exact absurd (Option.some.inj this).symm h

/-- The effect body run on a page whose sockets are all disconnected
establishes the room discipline. -/
theorem socketSetup_spec (p : State)
    (hj : ∀ r ∈ p.sockets, ∀ c, ClientEvent.joinRoom c ∈ r.emitted → c = r.room)
    (hoff : ∀ r ∈ p.sockets, r.disconnected = true) :
    RoomInv (socketSetup p) := by
  unfold socketSetup
  split
  · refine ⟨hj, fun r hr hd => ?_⟩
    rw [hoff r hr] at hd
    cases hd
  · constructor
    · intro r hr c hc
      simp only [List.mem_append, List.mem_singleton] at hr
      rcases hr with hr | rfl
      · exact hj r hr c hc
      · simp at hc
    · intro r hr hd
      simp only [List.mem_append, List.mem_singleton] at hr
      rcases hr with hr | rfl
      · rw [hoff r hr] at hd
        cases hd
      · exact ⟨rfl, rfl⟩

theorem onConnect_roomInv (p : State) (sid : Nat) (h : RoomInv p) :
    RoomInv (onConnect p sid) := by
  obtain ⟨hj, hl⟩ := h
  constructor
  · intro r hr c hc
    simp only [onConnect, List.mem_map] at hr
    obtain ⟨r0, hr0, rfl⟩ := hr
    by_cases hs : r0.sid = sid
    · simp only [hs, if_true, List.mem_append, List.mem_singleton] at hc ⊢
      rcases hc with hc | hc
      · exact hj r0 hr0 c hc
      · exact ClientEvent.joinRoom.inj hc
    · simp only [hs, if_false] at hc ⊢
      exact hj r0 hr0 c hc
  · intro r hr hd
    simp only [onConnect, List.mem_map] at hr
    obtain ⟨r0, hr0, rfl⟩ := hr
    by_cases hs : r0.sid = sid
    · simp only [hs, if_true] at hd ⊢
      have := hl r0 hr0 hd
      simpa [onConnect, hs] using this
    · simp only [hs, if_false] at hd ⊢
      exact hl r0 hr0 hd

theorem handleSendMessage_cases (p : State) :
    handleSendMessage p = (p, []) ∨
    ∃ sock a b c, handleSendMessage p =
      ({ p with newMessage := "" }, [⟨sock, ClientEvent.sendMessage a b c⟩]) := by
  unfold handleSendMessage
  split
  · split
    · exact Or.inl rfl
    · exact Or.inr ⟨_, _, _, _, rfl⟩
  · exact Or.inl rfl

theorem submit_roomInv (p : State) (h : RoomInv p) : RoomInv (step p .submit) := by
  rcases handleSendMessage_cases p with h0 | ⟨sock, a, b, c, h1⟩
  · have : step p .submit = p := by simp [step, h0, recordEmits]
    rw [this]
    exact h
  · obtain ⟨hj, hl⟩ := h
    have hst : step p .submit =
        { p with
          newMessage := ""
          sockets := p.sockets.map fun r =>
            if r.sid = sock then
              { r with emitted := r.emitted ++ [ClientEvent.sendMessage a b c] }
            else r } := by
      simp [step, h1, recordEmits]
    rw [hst]
    constructor
    · intro r hr x hx
      simp only [List.mem_map] at hr
      obtain ⟨r0, hr0, rfl⟩ := hr
      by_cases hs : r0.sid = sock
      · simp only [hs, if_true, List.mem_append, List.mem_singleton] at hx ⊢
        rcases hx with hx | hx
        · exact hj r0 hr0 x hx
        · cases hx
      · simp only [hs, if_false] at hx ⊢
        exact hj r0 hr0 x hx
    · intro r hr hd
      simp only [List.mem_map] at hr
      obtain ⟨r0, hr0, rfl⟩ := hr
      by_cases hs : r0.sid = sock
      · simp only [hs, if_true] at hd ⊢
        have := hl r0 hr0 hd
        simpa [hs] using this
      · simp only [hs, if_false] at hd ⊢
        exact hl r0 hr0 hd

/-- A rerun of the Socket.IO effect, possibly for a new route parameter,
establishes the room discipline. -/
theorem socketEffect_roomInv (p q : State) (h : RoomInv p)
    (hs : q.sockets = p.sockets) (he : q.effectSocket = p.effectSocket) :
    RoomInv (socketEffect q) := by
  obtain ⟨hj, hl⟩ := h
  have hc := socketCleanup_spec q (by rw [hs]; exact hj)
    (by
      rw [hs, he]
      intro r hr hd
      exact (hl r hr hd).2)
  exact socketSetup_spec _ hc.1 hc.2

theorem step_roomInv (p : State) (e : Event) (h : RoomInv p) :
    RoomInv (step p e) := by
  cases e with
  | courseResponse data =>
    exact socketEffect_roomInv p _ h (fetchData_course_fields p data).2.2.2.1
      (fetchData_course_fields p data).2.2.2.2
  | routeChange newId =>
    simp only [step]
    split
    · exact h
    · exact socketEffect_roomInv p _ h rfl rfl
  | submit => exact submit_roomInv p h
  | messagesResponse data => exact h
  | fetchError => exact h
  | connect sid => exact onConnect_roomInv p sid h
  | reconnect sid => exact onConnect_roomInv p sid h
  | message m => exact h
  | input text => exact h

theorem run_roomInv (evs : List Event) (p : State) (h : RoomInv p) :
    RoomInv (run evs p) := by
  induction evs generalizing p with
  | nil => exact h
  | cons e evs ih => exact ih (step p e) (step_roomInv p e h)

/-- C7: in every run of the page, for every socket the page has created:
every `joinRoom` emitted on it (by its `connect` and `reconnect` handlers)
carries one and the same course id, the `id` the socket was created for; a
socket on which `disconnect()` has not been called is the mounted effect's
socket and was created for the page's current `id`; hence a socket that has
joined a room other than the current `id` has been disconnected. A route
change to `B` makes `B` the current `id`, so after it the sockets that joined
another room are disconnected and only a socket created for `B` joins `B`. -/
theorem joinRoom_single_room (id : String) (user : Option AuthUser)
    (evs : List Event) (r : SocketRec)
    (hr : r ∈ (run evs (State.init id user)).sockets) :
    (∀ c, ClientEvent.joinRoom c ∈ r.emitted → c = r.room) ∧
    (r.disconnected = false →
      r.room = (run evs (State.init id user)).id ∧
      (run evs (State.init id user)).effectSocket = some r.sid) ∧
    (∀ c, ClientEvent.joinRoom c ∈ r.emitted →
      c ≠ (run evs (State.init id user)).id → r.disconnected = true) ∧
    (∀ B, (step (run evs (State.init id user)) (.routeChange B)).id = B) := by
  obtain ⟨hj, hl⟩ := run_roomInv evs _ (roomInv_init id user)
  refine ⟨hj r hr, hl r hr, ?_, ?_⟩
  · intro c hc hne
    cases hd : r.disconnected with
    | true => rfl
    | false =>
      have h1 := hj r hr c hc
      have h2 := (hl r hr hd).1
      exact absurd (h1.trans h2) hne
  · intro B
    simp only [step]
    split
    · rename_i heq
      exact heq.symm
    · exact (socketEffect_fields _).2.1

/-- Witness for C7: the socket that joined `c1` after the route changed to
`c2` and a second socket joined `c2`. -/
theorem joinRoom_single_room_witness :
    (∀ c, ClientEvent.joinRoom c ∈ [ClientEvent.joinRoom "c1"] → c = "c1") ∧
    ((true = false) →
      "c1" = (run [.courseResponse sampleCourse, .connect 0, .routeChange "c2",
        .connect 1] (State.init "c1" (some sampleUser))).id ∧
      (run [.courseResponse sampleCourse, .connect 0, .routeChange "c2",
        .connect 1] (State.init "c1" (some sampleUser))).effectSocket = some 0) ∧
    (∀ c, ClientEvent.joinRoom c ∈ [ClientEvent.joinRoom "c1"] →
      c ≠ (run [.courseResponse sampleCourse, .connect 0, .routeChange "c2",
        .connect 1] (State.init "c1" (some sampleUser))).id → true = true) ∧
    (∀ B, (step (run [.courseResponse sampleCourse, .connect 0,
        .routeChange "c2", .connect 1] (State.init "c1" (some sampleUser)))
      (.routeChange B)).id = B) :=
  joinRoom_single_room "c1" (some sampleUser)
    [.courseResponse sampleCourse, .connect 0, .routeChange "c2", .connect 1]
    ⟨0, "c1", [.joinRoom "c1"], true⟩ (by decide)

end CourseDetailsPage

/-! ## Theorems: the enrollment controller -/

namespace enrollmentController

open Server

/-- What `enrollCourse` returns, by cases on its control flow. -/
theorem enrollCourse_cases (ft : Faults) (env : Env) (db : Store) (req : Req)
    (body : ReqBody) (hb : req.body = some body) :
    enrollCourse ft env db req =
        .ok ⟨db, [serverError], [⟨.enrollmentFindOne, true⟩]⟩ ∨
    (∃ e, findOne db req.user.userId body.courseId = some e ∧
      enrollCourse ft env db req =
        .ok ⟨db, [⟨400, .message "Already enrolled"⟩],
          [⟨.enrollmentFindOne, false⟩]⟩) ∨
    enrollCourse ft env db req =
        .ok ⟨db, [serverError],
          [⟨.enrollmentFindOne, false⟩, ⟨.enrollmentSave, true⟩]⟩ ∨
    (findOne db req.user.userId body.courseId = none ∧
      enrollCourse ft env db req =
        .ok ⟨save db (newEnrollment env req.user.userId body.courseId),
          [⟨201, .enrollment (newEnrollment env req.user.userId body.courseId)⟩],
          [⟨.enrollmentFindOne, false⟩, ⟨.enrollmentSave, false⟩]⟩) := by
  unfold enrollCourse
  rw [hb]
  simp only
  by_cases h1 : ft.enrollmentFindOne = true
  · simp [h1]
  · simp only [h1]
    cases hf : findOne db req.user.userId body.courseId with
    | some e => simp
    | none =>
      by_cases h2 : ft.enrollmentSave = true
      · simp [h2]
      · simp [h2]

/-- C8, amended: an `enrollCourse` request that succeeds (a 201 response is
sent) sends that one response, carrying the new Enrollment (student = the
requester, course = `courseId`, progress 0), adds exactly that Enrollment to
the store, and changes nothing else in the store; no Notification record is
created. -/
theorem enrollCourse_success_effect (ft : Faults) (env : Env) (db : Store)
    (req : Req) (r : Result) (h : enrollCourse ft env db req = .ok r)
    (h201 : ∃ resp ∈ r.sent, resp.status = 201) :
    ∃ body, req.body = some body ∧
      r.sent = [⟨201, .enrollment ⟨env.freshId, req.user.userId, body.courseId, 0, env.now⟩⟩] ∧
      r.store.enrollments =
        db.enrollments ++ [⟨env.freshId, req.user.userId, body.courseId, 0, env.now⟩] ∧
      r.store.notifications = db.notifications ∧
      r.store.courses = db.courses ∧ r.store.users = db.users := by
  cases hb : req.body with
  | none => simp [enrollCourse, hb] at h
  | some body =>
    refine ⟨body, rfl, ?_⟩
    obtain ⟨resp, hmem, hst⟩ := h201
    rcases enrollCourse_cases ft env db req body hb with h1 | ⟨e, _, h1⟩ | h1 | ⟨_, h1⟩
    · rw [h1] at h
      cases h
      simp [serverError] at hmem
      rw [hmem] at hst
      simp at hst
    · rw [h1] at h
      cases h
      simp at hmem
      rw [hmem] at hst
      simp at hst
    · rw [h1] at h
      cases h
      simp [serverError] at hmem
      rw [hmem] at hst
      simp at hst
    · rw [h1] at h
      cases h
      simp [save, newEnrollment]

/-- Witness for C8 (amended): student `s1` enrolls in `c1`. -/
theorem enrollCourse_success_effect_witness :
    ∃ body, (sampleReq "s1" "c1").body = some body ∧
      [(⟨201, .enrollment ⟨"e1", "s1", "c1", 0, 1000⟩⟩ : Response)] =
        [⟨201, .enrollment ⟨sampleEnv.freshId, (sampleReq "s1" "c1").user.userId,
          body.courseId, 0, sampleEnv.now⟩⟩] ∧
      [(⟨"e1", "s1", "c1", 0, 1000⟩ : Enrollment)] =
        sampleStore.enrollments ++
          [⟨sampleEnv.freshId, (sampleReq "s1" "c1").user.userId, body.courseId, 0,
            sampleEnv.now⟩] ∧
      ([] : List Notification) = sampleStore.notifications ∧
      sampleStore.courses = sampleStore.courses ∧
      sampleStore.users = sampleStore.users :=
  enrollCourse_success_effect noFaults sampleEnv sampleStore (sampleReq "s1" "c1")
    ⟨{ sampleStore with enrollments := [⟨"e1", "s1", "c1", 0, 1000⟩] },
      [⟨201, .enrollment ⟨"e1", "s1", "c1", 0, 1000⟩⟩],
      [⟨.enrollmentFindOne, false⟩, ⟨.enrollmentSave, false⟩]⟩
    rfl ⟨_, List.mem_singleton.mpr rfl, rfl⟩

/-- C8 as stated fails: student `s1` enrolls in course `c1`, the response is
201 with the new Enrollment, and the store afterwards holds the Enrollment but
no Notification. -/
theorem enrollCourse_creates_no_notification :
    enrollCourse noFaults sampleEnv sampleStore (sampleReq "s1" "c1") =
      .ok ⟨{ sampleStore with enrollments := [⟨"e1", "s1", "c1", 0, 1000⟩] },
        [⟨201, .enrollment ⟨"e1", "s1", "c1", 0, 1000⟩⟩],
        [⟨.enrollmentFindOne, false⟩, ⟨.enrollmentSave, false⟩]⟩ ∧
    ({ sampleStore with
        enrollments := [⟨"e1", "s1", "c1", 0, 1000⟩] } : Store).notifications = [] :=
  ⟨rfl, rfl⟩

theorem findById_eq_none (db : Store) (id : String) :
    findById db id = none ↔ ∀ c ∈ db.courses, c._id ≠ id := by
  simp [findById, List.find?_eq_none]

/-- C9: when `Course.findById` does not fail, `getCourseEnrollments` returns
without touching the store, and its response is the single response 403
`Unauthorized` exactly when no course has the requested id or the course
found has a tutor other than the requester (a 403 response carries a message
only, no enrollment); otherwise, when `Enrollment.find` does not fail either,
the single response is 200 with exactly the enrollments whose course is the
requested `courseId`, in store order, each with its student populated. -/
theorem getCourseEnrollments_authz (ft : Faults) (db : Store) (req : Req)
    (h1 : ft.courseFindById = false) :
    ∃ r, getCourseEnrollments ft db req = .ok r ∧ r.store = db ∧
      (r.sent = [⟨403, .message "Unauthorized"⟩] ↔
        ((∀ c ∈ db.courses, c._id ≠ req.params.courseId) ∨
          ∃ c, findById db req.params.courseId = some c ∧
            c.tutor ≠ req.user.userId)) ∧
      (ft.enrollmentFind = false →
        ¬ ((∀ c ∈ db.courses, c._id ≠ req.params.courseId) ∨
            ∃ c, findById db req.params.courseId = some c ∧
              c.tutor ≠ req.user.userId) →
        r.sent = [⟨200, .courseEnrollments
          ((db.enrollments.filter fun e => e.course == req.params.courseId).map
            (populateStudent db))⟩]) := by
  rw [← findById_eq_none]
  unfold getCourseEnrollments
  simp only [h1, Bool.false_eq_true, if_false]
  cases hc : findById db req.params.courseId with
  | none => exact ⟨_, rfl, rfl, by simp, by simp⟩
  | some c =>
    by_cases ht : c.tutor = req.user.userId
    · by_cases hf : ft.enrollmentFind = true
      · refine ⟨_, by simp [ht, hf]; rfl, rfl, ?_, ?_⟩
        · simp [ht, serverError]
        · simp [hf]
      · refine ⟨_, by simp [ht, hf]; rfl, rfl, ?_, ?_⟩
        · simp [ht]
        · simp
    · refine ⟨_, by simp [ht]; rfl, rfl, ?_, ?_⟩
      · simp [ht]
      · simp [ht]

/-- Witness for C9: tutor `t1` asks for the enrollments of the own course
`c1`. -/
theorem getCourseEnrollments_authz_witness :
    ∃ r, getCourseEnrollments noFaults sampleStore (sampleReq "t1" "c1") = .ok r ∧
      r.store = sampleStore ∧
      (r.sent = [⟨403, .message "Unauthorized"⟩] ↔
        ((∀ c ∈ sampleStore.courses, c._id ≠ (sampleReq "t1" "c1").params.courseId) ∨
          ∃ c, findById sampleStore (sampleReq "t1" "c1").params.courseId = some c ∧
            c.tutor ≠ (sampleReq "t1" "c1").user.userId)) ∧
      (noFaults.enrollmentFind = false →
        ¬ ((∀ c ∈ sampleStore.courses,
              c._id ≠ (sampleReq "t1" "c1").params.courseId) ∨
            ∃ c, findById sampleStore (sampleReq "t1" "c1").params.courseId = some c ∧
              c.tutor ≠ (sampleReq "t1" "c1").user.userId) →
        r.sent = [⟨200, .courseEnrollments
          ((sampleStore.enrollments.filter fun e =>
              e.course == (sampleReq "t1" "c1").params.courseId).map
            (populateStudent sampleStore))⟩]) :=
  getCourseEnrollments_authz noFaults sampleStore (sampleReq "t1" "c1") rfl

/-- What `getCourseEnrollments` returns, by cases on its control flow. -/
theorem getCourseEnrollments_cases (ft : Faults) (db : Store) (req : Req) :
    getCourseEnrollments ft db req =
        .ok ⟨db, [serverError], [⟨.courseFindById, true⟩]⟩ ∨
    getCourseEnrollments ft db req =
        .ok ⟨db, [⟨403, .message "Unauthorized"⟩], [⟨.courseFindById, false⟩]⟩ ∨
    getCourseEnrollments ft db req =
        .ok ⟨db, [serverError],
          [⟨.courseFindById, false⟩, ⟨.enrollmentFind, true⟩]⟩ ∨
    getCourseEnrollments ft db req =
        .ok ⟨db, [⟨200, .courseEnrollments
            ((db.enrollments.filter fun e => e.course == req.params.courseId).map
              (populateStudent db))⟩],
          [⟨.courseFindById, false⟩, ⟨.enrollmentFind, false⟩]⟩ := by
  unfold getCourseEnrollments
  by_cases h1 : ft.courseFindById = true
  · exact Or.inl (if_pos h1)
  · rw [if_neg h1]
    by_cases hu : ((findById db req.params.courseId).isNone ||
        (findById db req.params.courseId).any fun c => c.tutor != req.user.userId) = true
    · exact Or.inr (Or.inl (if_pos hu))
    · rw [if_neg hu]
      by_cases hf : ft.enrollmentFind = true
      · exact Or.inr (Or.inr (Or.inl (if_pos hf)))
      · exact Or.inr (Or.inr (Or.inr (if_neg hf)))

/-- What `getStudentEnrollments` returns, by cases on its control flow. -/
theorem getStudentEnrollments_cases (ft : Faults) (db : Store) (req : Req) :
    (ft.enrollmentFind = true ∧
      getStudentEnrollments ft db req =
        .ok ⟨db, [serverError], [⟨.enrollmentFind, true⟩]⟩) ∨
    (ft.enrollmentFind = false ∧
      getStudentEnrollments ft db req =
        .ok ⟨db, [⟨200, .studentEnrollments
            ((db.enrollments.filter fun e => e.student == req.user.userId).map
              (populateCourse db))⟩],
          [⟨.enrollmentFind, false⟩]⟩) := by
  unfold getStudentEnrollments
  by_cases hf : ft.enrollmentFind = true
  · exact Or.inl ⟨hf, if_pos hf⟩
  · exact Or.inr ⟨by simpa using hf, if_neg hf⟩

/-- C10: no store failure escapes an enrollment handler. Each of
`enrollCourse` (given a request body), `getStudentEnrollments` and
`getCourseEnrollments` returns and sends exactly one response; the store
operations it has called threw exactly as the faults say; whenever one of them
threw, the store is as before and the response is 500 `Server error` (and
conversely that response is sent only then). In particular: a failing
`Enrollment.findOne`, or a failing `save` of a new enrollment, makes
`enrollCourse` answer 500 and never 201; a failing `Enrollment.find` makes
`getStudentEnrollments` answer 500; a failing `Course.findById`, or a failing
`Enrollment.find` for an authorised requester, makes `getCourseEnrollments`
answer 500. -/
theorem store_failure_yields_500 (ft : Faults) (env : Env) (db : Store)
    (req : Req) :
    (∀ body, req.body = some body →
      ∃ r, enrollCourse ft env db req = .ok r ∧ r.sent.length = 1 ∧
        r.calls ≠ [] ∧ (∀ c ∈ r.calls, c.threw = ft.throws c.op) ∧
        ((∃ c ∈ r.calls, c.threw = true) ↔ r.sent = [⟨500, .message "Server error"⟩]) ∧
        ((∃ c ∈ r.calls, c.threw = true) → r.store = db) ∧
        (ft.enrollmentFindOne = true →
          r = ⟨db, [⟨500, .message "Server error"⟩], [⟨.enrollmentFindOne, true⟩]⟩) ∧
        (ft.enrollmentFindOne = false →
          findOne db req.user.userId body.courseId = none →
          ft.enrollmentSave = true →
          r = ⟨db, [⟨500, .message "Server error"⟩],
            [⟨.enrollmentFindOne, false⟩, ⟨.enrollmentSave, true⟩]⟩)) ∧
    (∃ r, getStudentEnrollments ft db req = .ok r ∧ r.sent.length = 1 ∧
        r.calls ≠ [] ∧ (∀ c ∈ r.calls, c.threw = ft.throws c.op) ∧
        ((∃ c ∈ r.calls, c.threw = true) ↔ r.sent = [⟨500, .message "Server error"⟩]) ∧
        ((∃ c ∈ r.calls, c.threw = true) → r.store = db) ∧
        (ft.enrollmentFind = true →
          r = ⟨db, [⟨500, .message "Server error"⟩], [⟨.enrollmentFind, true⟩]⟩)) ∧
    (∃ r, getCourseEnrollments ft db req = .ok r ∧ r.sent.length = 1 ∧
        r.calls ≠ [] ∧ (∀ c ∈ r.calls, c.threw = ft.throws c.op) ∧
        ((∃ c ∈ r.calls, c.threw = true) ↔ r.sent = [⟨500, .message "Server error"⟩]) ∧
        ((∃ c ∈ r.calls, c.threw = true) → r.store = db) ∧
        (ft.courseFindById = true →
          r = ⟨db, [⟨500, .message "Server error"⟩], [⟨.courseFindById, true⟩]⟩) ∧
        (ft.courseFindById = false →
          (∃ c, findById db req.params.courseId = some c ∧
            c.tutor = req.user.userId) →
          ft.enrollmentFind = true →
          r = ⟨db, [⟨500, .message "Server error"⟩],
            [⟨.courseFindById, false⟩, ⟨.enrollmentFind, true⟩]⟩)) := by
  refine ⟨?_, ?_, ?_⟩
  · intro body hb
    by_cases h1 : ft.enrollmentFindOne = true
    · have hr : enrollCourse ft env db req =
          .ok ⟨db, [serverError], [⟨.enrollmentFindOne, true⟩]⟩ := by
        unfold enrollCourse
        rw [hb]
        simp [h1]
      refine ⟨_, hr, rfl, by simp, ?_, by simp [serverError], by simp,
        fun _ => rfl, fun h => ?_⟩
      · intro c hc
        rw [List.mem_singleton.mp hc]
        exact h1.symm
      · rw [h1] at h
        cases h
    · have h1f : ft.enrollmentFindOne = false := by simpa using h1
      cases hf : findOne db req.user.userId body.courseId with
      | some e =>
        have hr : enrollCourse ft env db req =
            .ok ⟨db, [⟨400, .message "Already enrolled"⟩],
              [⟨.enrollmentFindOne, false⟩]⟩ := by
          unfold enrollCourse
          rw [hb]
          simp [h1f, hf]
        refine ⟨_, hr, rfl, by simp, ?_, by simp, by simp, fun h => ?_,
          fun _ h => by cases h⟩
        · intro c hc
          rw [List.mem_singleton.mp hc]
          exact h1f.symm
        · rw [h1f] at h
          cases h
      | none =>
        by_cases h2 : ft.enrollmentSave = true
        · have hr : enrollCourse ft env db req =
              .ok ⟨db, [serverError],
                [⟨.enrollmentFindOne, false⟩, ⟨.enrollmentSave, true⟩]⟩ := by
            unfold enrollCourse
            rw [hb]
            simp [h1f, hf, h2]
          refine ⟨_, hr, rfl, by simp, ?_, by simp [serverError], by simp,
            fun h => ?_, fun _ _ _ => rfl⟩
          · intro c hc
            simp only [List.mem_cons, List.mem_singleton, List.not_mem_nil,
              or_false] at hc
            rcases hc with rfl | rfl
            · exact h1f.symm
            · exact h2.symm
          · rw [h1f] at h
            cases h
        · have h2f : ft.enrollmentSave = false := by simpa using h2
          have hr : enrollCourse ft env db req =
              .ok ⟨save db (newEnrollment env req.user.userId body.courseId),
                [⟨201, .enrollment (newEnrollment env req.user.userId body.courseId)⟩],
                [⟨.enrollmentFindOne, false⟩, ⟨.enrollmentSave, false⟩]⟩ := by
            unfold enrollCourse
            rw [hb]
            simp [h1f, hf, h2f]
          refine ⟨_, hr, rfl, by simp, ?_, by simp, by simp, fun h => ?_,
            fun _ _ h => ?_⟩
          · intro c hc
            simp only [List.mem_cons, List.mem_singleton, List.not_mem_nil,
              or_false] at hc
            rcases hc with rfl | rfl
            · exact h1f.symm
            · exact h2f.symm
          · rw [h1f] at h
            cases h
          · rw [h2f] at h
            cases h
  · rcases getStudentEnrollments_cases ft db req with ⟨hf, h⟩ | ⟨hf, h⟩
    · refine ⟨_, h, rfl, by simp, ?_, by simp [serverError], by simp, fun _ => rfl⟩
      intro c hc
      rw [List.mem_singleton.mp hc]
      exact hf.symm
    · refine ⟨_, h, rfl, by simp, ?_, by simp, by simp, fun h2 => ?_⟩
      · intro c hc
        rw [List.mem_singleton.mp hc]
        exact hf.symm
      · rw [hf] at h2
        cases h2
  · by_cases h1 : ft.courseFindById = true
    · have hr : getCourseEnrollments ft db req =
          .ok ⟨db, [serverError], [⟨.courseFindById, true⟩]⟩ := by
        unfold getCourseEnrollments
        exact if_pos h1
      refine ⟨_, hr, rfl, by simp, ?_, by simp [serverError], by simp,
        fun _ => rfl, fun h => ?_⟩
      · intro c hc
        rw [List.mem_singleton.mp hc]
        exact h1.symm
      · rw [h1] at h
        cases h
    · have h1f : ft.courseFindById = false := by simpa using h1
      by_cases hu : ((findById db req.params.courseId).isNone ||
          (findById db req.params.courseId).any fun c => c.tutor != req.user.userId) = true
      · have hr : getCourseEnrollments ft db req =
            .ok ⟨db, [⟨403, .message "Unauthorized"⟩], [⟨.courseFindById, false⟩]⟩ := by
          unfold getCourseEnrollments
          rw [if_neg h1, if_pos hu]
        refine ⟨_, hr, rfl, by simp, ?_, by simp, by simp, fun h => ?_, ?_⟩
        · intro c hc
          rw [List.mem_singleton.mp hc]
          exact h1f.symm
        · rw [h1f] at h
          cases h
        · rintro _ ⟨c, hc, ht⟩ _
          rw [hc] at hu
          simp [ht] at hu
      · by_cases h2 : ft.enrollmentFind = true
        · have hr : getCourseEnrollments ft db req =
              .ok ⟨db, [serverError],
                [⟨.courseFindById, false⟩, ⟨.enrollmentFind, true⟩]⟩ := by
            unfold getCourseEnrollments
            rw [if_neg h1, if_neg hu, if_pos h2]
          refine ⟨_, hr, rfl, by simp, ?_, by simp [serverError], by simp,
            fun h => ?_, fun _ _ _ => rfl⟩
          · intro c hc
            simp only [List.mem_cons, List.mem_singleton, List.not_mem_nil,
              or_false] at hc
            rcases hc with rfl | rfl
            · exact h1f.symm
            · exact h2.symm
          · rw [h1f] at h
            cases h
        · have h2f : ft.enrollmentFind = false := by simpa using h2
          have hr : getCourseEnrollments ft db req =
              .ok ⟨db, [⟨200, .courseEnrollments
                  ((db.enrollments.filter fun e => e.course == req.params.courseId).map
                    (populateStudent db))⟩],
                [⟨.courseFindById, false⟩, ⟨.enrollmentFind, false⟩]⟩ := by
            unfold getCourseEnrollments
            rw [if_neg h1, if_neg hu, if_neg h2]
          refine ⟨_, hr, rfl, by simp, ?_, by simp, by simp, fun h => ?_,
            fun _ _ h => ?_⟩
          · intro c hc
            simp only [List.mem_cons, List.mem_singleton, List.not_mem_nil,
              or_false] at hc
            rcases hc with rfl | rfl
            · exact h1f.symm
            · exact h2f.symm
          · rw [h1f] at h
            cases h
          · rw [h2f] at h
            cases h

/-- Witness for C10: `save` fails while `s1` enrolls in `c1`, a course `s1` is
not enrolled in; the handler returns with the store unchanged and the one
response 500 `Server error`, not 201. -/
theorem store_failure_yields_500_witness :
    enrollCourse ⟨false, true, false, false⟩ sampleEnv sampleStore
        (sampleReq "s1" "c1") =
      .ok ⟨sampleStore, [⟨500, .message "Server error"⟩],
        [⟨.enrollmentFindOne, false⟩, ⟨.enrollmentSave, true⟩]⟩ := by
  obtain ⟨r, hr, _, _, _, _, _, _, hsave⟩ :=
    (store_failure_yields_500 ⟨false, true, false, false⟩ sampleEnv sampleStore
      (sampleReq "s1" "c1")).1 ⟨"c1"⟩ rfl
  rw [hr, hsave rfl rfl rfl]

end enrollmentController

/-! ## Theorems: the courses router -/

namespace coursesRouter

/-- C11: every route of the courses router is behind `authenticate`. Whatever
the route matcher and the behaviour of the registered functions, the functions
run for a request start with `authenticate`; when `authenticate` does not call
`next()` nothing else runs; so a controller runs only after `authenticate` has
run and passed the request on. The router holds nine routes, and each of the
nine controllers is reachable only through one of them. -/
theorem dispatch_behind_authenticate (matchRoute : Route → Request → Bool)
    (passes : Fn → Request → Bool) (req : Request) :
    ∃ rest, dispatch matchRoute passes req router = Fn.authenticate :: rest ∧
      (passes .authenticate req = false → rest = []) ∧
      (∀ c, Fn.controller c ∈ rest → passes .authenticate req = true) ∧
      routes.length = 9 ∧
      router = .use .authenticate :: routes.map .route ∧
      (∀ c : Controller, ∃ r ∈ routes, Fn.controller c ∈ r.stack) := by
  by_cases h : passes .authenticate req = true
  · refine ⟨dispatch matchRoute passes req (routes.map .route), ?_, ?_, ?_, rfl, rfl, ?_⟩
    · simp [router, dispatch, h]
    · intro hf
      rw [h] at hf
      cases hf
    · intro _ _
      exact h
    · intro c
      cases c <;> decide
  · refine ⟨[], ?_, fun _ => rfl, ?_, rfl, rfl, ?_⟩
    · simp [router, dispatch, h]
    · intro c hc
      cases hc
    · intro c
      cases c <;> decide

/-- Witness for C11: an unauthenticated `GET /tutor`. -/
theorem dispatch_behind_authenticate_witness :
    ∃ rest, dispatch matchRoute (samplePasses false) ⟨.GET, ["tutor"]⟩ router =
        Fn.authenticate :: rest ∧
      (samplePasses false .authenticate ⟨.GET, ["tutor"]⟩ = false → rest = []) ∧
      (∀ c, Fn.controller c ∈ rest →
        samplePasses false .authenticate ⟨.GET, ["tutor"]⟩ = true) ∧
      routes.length = 9 ∧
      router = .use .authenticate :: routes.map .route ∧
      (∀ c : Controller, ∃ r ∈ routes, Fn.controller c ∈ r.stack) :=
  dispatch_behind_authenticate matchRoute (samplePasses false) ⟨.GET, ["tutor"]⟩

/-- Runs of the router: an authenticated `GET /tutor` reaches
`getTutorCourses` after `authenticate`, an authenticated `PUT /c1` reaches
`updateCourse` after `authenticate` and the upload middleware, and the same
requests unauthenticated stop at `authenticate`. -/
theorem dispatch_examples :
    dispatch matchRoute (samplePasses true) ⟨.GET, ["tutor"]⟩ router =
      [.authenticate, .controller .getTutorCourses] ∧
    dispatch matchRoute (samplePasses true) ⟨.PUT, ["c1"]⟩ router =
      [.authenticate, .upload "thumbnail", .controller .updateCourse] ∧
    dispatch matchRoute (samplePasses false) ⟨.GET, ["tutor"]⟩ router =
      [.authenticate] ∧
    dispatch matchRoute (samplePasses false) ⟨.PUT, ["c1"]⟩ router =
      [.authenticate] := by
  decide

end coursesRouter

/-! ## Theorems: notifications on the student dashboard -/

namespace StudentDashboard

open Client

/-- C12: after each of two successive successful `handleMarkAllAsRead` calls
the unread count is 0 and the notifications list is the list the server
returned for that call. -/
theorem handleMarkAllAsRead_idempotent (s : State)
    (data1 data2 : List Notification) :
    (handleMarkAllAsRead s (.ok data1)).unreadCount = 0 ∧
    (handleMarkAllAsRead s (.ok data1)).notifications = data1 ∧
    (handleMarkAllAsRead (handleMarkAllAsRead s (.ok data1)) (.ok data2)).unreadCount
      = 0 ∧
    (handleMarkAllAsRead (handleMarkAllAsRead s (.ok data1)) (.ok data2)).notifications
      = data2 :=
  ⟨rfl, rfl, rfl, rfl⟩

/-- Marking the notifications with a given `_id` read lowers the number of
unread notifications by the number of unread notifications with that `_id`. -/
theorem unread_after_mark (notifications : List Notification) (id : String) :
    ((notifications.map fun n =>
        if n._id == id then { n with read := true } else n).filter
          fun n => !n.read).length +
      (notifications.filter fun n => n._id == id && !n.read).length =
    (notifications.filter fun n => !n.read).length := by
  induction notifications with
  | nil => rfl
  | cons n ns ih =>
    by_cases h1 : n._id = id <;> by_cases h2 : n.read = true <;>
      simp [List.filter_cons, h1, h2] at ih ⊢ <;> omega

theorem applyCall_consistent (s : State) (c : Call)
    (h0 : s.unreadCount = unread s.notifications) (hg : Guarded s c) :
    (applyCall s c).unreadCount = unread (applyCall s c).notifications := by
  cases c with
  | markAsRead id res =>
    cases res with
    | error e => exact h0
    | ok u =>
      have key := unread_after_mark s.notifications id
      simp only [Guarded] at hg
      simp only [applyCall, handleMarkAsRead, unread] at h0 ⊢
      rw [h0]
      omega
  | markAllAsRead res =>
    cases res with
    | error e => exact h0
    | ok data =>
      simp only [Guarded] at hg
      simp only [applyCall, handleMarkAllAsRead]
      exact hg.symm

/-- C13, amended: starting from a state where `unreadCount` equals the number
of notifications of the list with `read = false`, after every sequence of
handler calls in which each successful `handleMarkAsRead` is made on the
`_id` of exactly one unread notification of the list (the page calls it only
for a notification with `read = false`) and each successful
`handleMarkAllAsRead` receives a list without unread notifications, failed
calls being unrestricted, `unreadCount` still equals the number of
notifications of the list with `read = false`. -/
theorem unreadCount_consistent (s : State) (calls : List Call)
    (h0 : s.unreadCount = unread s.notifications) (hg : GuardedSeq s calls) :
    (runCalls s calls).unreadCount = unread (runCalls s calls).notifications := by
  induction calls generalizing s with
  | nil => exact h0
  | cons c cs ih =>
    exact ih (applyCall s c) (applyCall_consistent s c h0 hg.1) hg.2

/-- Witness for C13 (amended): two notifications, one unread; the unread one
is marked read, a second request fails, then everything is marked read. -/
theorem unreadCount_consistent_witness :
    (runCalls
      (sampleDashboard [sampleNotification "n1" false, sampleNotification "n2" true] 1)
      [.markAsRead "n1" (.ok ()), .markAsRead "n2" (.error ⟨some 403, none⟩),
        .markAllAsRead (.ok [sampleNotification "n1" true,
          sampleNotification "n2" true])]).unreadCount =
    unread (runCalls
      (sampleDashboard [sampleNotification "n1" false, sampleNotification "n2" true] 1)
      [.markAsRead "n1" (.ok ()), .markAsRead "n2" (.error ⟨some 403, none⟩),
        .markAllAsRead (.ok [sampleNotification "n1" true,
          sampleNotification "n2" true])]).notifications :=
  unreadCount_consistent _ _ (by decide)
    ⟨by simp only [Guarded]; decide, trivial, by simp only [Guarded]; decide,
      trivial⟩

/-- C13 as stated fails. From a consistent state (one read notification,
`unreadCount = 0`) a successful `handleMarkAsRead` on the read notification,
or on an id that is not in the list, leaves no unread notification but sets
`unreadCount` to -1; and a successful `handleMarkAllAsRead` whose response
still lists an unread notification sets `unreadCount` to 0 beside one unread
notification. -/
theorem unreadCount_drifts :
    (sampleDashboard [sampleNotification "n1" true] 0).unreadCount =
      unread (sampleDashboard [sampleNotification "n1" true] 0).notifications ∧
    (handleMarkAsRead (sampleDashboard [sampleNotification "n1" true] 0) "n1"
      (.ok ())).unreadCount = -1 ∧
    unread (handleMarkAsRead (sampleDashboard [sampleNotification "n1" true] 0) "n1"
      (.ok ())).notifications = 0 ∧
    (handleMarkAsRead (sampleDashboard [sampleNotification "n1" true] 0) "zz"
      (.ok ())).unreadCount = -1 ∧
    unread (handleMarkAsRead (sampleDashboard [sampleNotification "n1" true] 0) "zz"
      (.ok ())).notifications = 0 ∧
    (handleMarkAllAsRead (sampleDashboard [sampleNotification "n1" true] 0)
      (.ok [sampleNotification "n1" false])).unreadCount = 0 ∧
    unread (handleMarkAllAsRead (sampleDashboard [sampleNotification "n1" true] 0)
      (.ok [sampleNotification "n1" false])).notifications = 1 := by
  decide

/-- C14: when the mark-as-read request is rejected, `handleMarkAsRead` returns
the state it was given: the notifications list, every read flag and
`unreadCount` are as before. -/
theorem handleMarkAsRead_rejected (s : State) (notificationId : String)
    (e : ApiError) :
    handleMarkAsRead s notificationId (.error e) = s ∧
    (handleMarkAsRead s notificationId (.error e)).notifications = s.notifications ∧
    (handleMarkAsRead s notificationId (.error e)).unreadCount = s.unreadCount :=
  ⟨rfl, rfl, rfl⟩

/-- C15: a successful `handleMarkAsRead(id)` only flips `read` to true. The
resulting list has the same length; at every position the resulting
notification is the original one with `read = true` when its `_id` is `id`
(all other fields unchanged) and the original one otherwise; so no
notification is removed and no read flag goes from true to false. -/
theorem handleMarkAsRead_only_flips (s : State) (id : String) :
    (handleMarkAsRead s id (.ok ())).notifications.length = s.notifications.length ∧
    ∀ (i : Nat) (n : Notification), s.notifications[i]? = some n →
      ∃ n2, (handleMarkAsRead s id (.ok ())).notifications[i]? = some n2 ∧
        n2._id = n._id ∧ n2.type = n.type ∧ n2.message = n.message ∧
        n2.course = n.course ∧ n2.createdAt = n.createdAt ∧
        (n._id = id → n2.read = true) ∧ (n._id ≠ id → n2 = n) ∧
        (n.read = true → n2.read = true) := by
  refine ⟨by simp [handleMarkAsRead], ?_⟩
  intro i n hn
  by_cases h : n._id = id
  · exact ⟨{ n with read := true }, by simp [handleMarkAsRead, hn, h],
      rfl, rfl, rfl, rfl, rfl, fun _ => rfl, fun hne => absurd h hne, fun _ => rfl⟩
  · exact ⟨n, by simp [handleMarkAsRead, hn, h],
      rfl, rfl, rfl, rfl, rfl, fun he => absurd he h, fun _ => rfl, fun hr => hr⟩

end StudentDashboard

/-! ## Theorems: JavaScript helpers -/

namespace Js

theorem splice_remove_one {α : Type} (xs : List α) (i : Nat) (h : i < xs.length) :
    splice xs i 1 [] = (xs.eraseIdx i, [xs[i]]) := by
  have h1 : min i xs.length = i := Nat.min_eq_left (Nat.le_of_lt h)
  have h2 : min 1 (xs.length - i) = 1 := Nat.min_eq_left (by omega)
  simp only [splice, h1, h2, List.append_nil, List.eraseIdx_eq_take_drop_succ]
  refine Prod.ext rfl ?_
  show List.take 1 (List.drop i xs) = [xs[i]]
  rw [List.drop_eq_getElem_cons h]
  rfl

theorem splice_insert_one {α : Type} (ys : List α) (d : Nat) (v : α)
    (h : d ≤ ys.length) :
    (splice ys d 0 [v]).1 = ys.take d ++ v :: ys.drop d := by
  have h1 : min d ys.length = d := Nat.min_eq_left h
  simp [splice, h1]

/-- Removing the element at `i` and inserting it at `d` gives a permutation
of the same length with that element at `d` and the others in their order. -/
theorem move_spec {α : Type} (xs : List α) (i d : Nat) (hi : i < xs.length)
    (hd : d < xs.length) :
    ((xs.eraseIdx i).take d ++ xs[i] :: (xs.eraseIdx i).drop d).Perm xs ∧
    ((xs.eraseIdx i).take d ++ xs[i] :: (xs.eraseIdx i).drop d).length = xs.length ∧
    ((xs.eraseIdx i).take d ++ xs[i] :: (xs.eraseIdx i).drop d)[d]? = xs[i]? ∧
    ((xs.eraseIdx i).take d ++ xs[i] :: (xs.eraseIdx i).drop d).eraseIdx d =
      xs.eraseIdx i := by
  have hl : (xs.eraseIdx i).length = xs.length - 1 := List.length_eraseIdx_of_lt hi
  have hdl : d ≤ (xs.eraseIdx i).length := by omega
  have htl : ((xs.eraseIdx i).take d).length = d := by
    rw [List.length_take]; omega
  refine ⟨?_, ?_, ?_, ?_⟩
  · refine List.perm_middle.trans ?_
    rw [List.take_append_drop]
    have hx : xs = xs.take i ++ xs[i] :: xs.drop (i + 1) := by
      rw [← List.drop_eq_getElem_cons hi, List.take_append_drop]
    conv_rhs => rw [hx]
    rw [List.eraseIdx_eq_take_drop_succ]
    exact List.perm_middle.symm
  · simp only [List.length_append, List.length_cons, List.length_take, List.length_drop]
    omega
  · rw [List.getElem?_append_right (by omega), htl]
    simp [List.getElem?_eq_getElem hi]
  · rw [List.eraseIdx_append_of_length_le (by omega), htl]
    simp

theorem head?_dropWhile_false {α : Type} (p : α → Bool) (l : List α) (c : α)
    (h : (l.dropWhile p).head? = some c) : p c = false := by
  have := List.head?_dropWhile_not p l
  rw [h] at this
  simpa using this

theorem getLast?_dropWhile {α : Type} (p : α → Bool) (l : List α) (c : α)
    (h : (l.dropWhile p).getLast? = some c) : l.getLast? = some c := by
  induction l with
  | nil => simp at h
  | cons a l ih =>
    rw [List.dropWhile_cons] at h
    split at h
    · have hl := ih h
      cases l with
      | nil => simp at hl
      | cons b l => simpa using hl
    · exact h

/-- A trimmed string neither starts nor ends with white space. -/
theorem trim_no_outer_whiteSpace (s : String) (c : Char) :
    ((trim s).data.head? = some c → isWhiteSpace c = false) ∧
    ((trim s).data.getLast? = some c → isWhiteSpace c = false) := by
  constructor
  · intro h
    simp only [trim, List.head?_reverse] at h
    have h1 := getLast?_dropWhile _ _ _ h
    rw [List.getLast?_reverse] at h1
    exact head?_dropWhile_false _ _ _ h1
  · intro h
    simp only [trim, List.getLast?_reverse] at h
    exact head?_dropWhile_false _ _ _ h

end Js

/-! ## Theorems: the edit page -/

namespace EditCoursePage

open Client

/-- C16: for every videos list and every source and destination index inside
it, `handleDragEnd` returns; the new videos list is a permutation of the
original one, of the same length, with the video originally at the source
index at the destination index and the other videos in their original
relative order (removing the moved video from either list gives the same
list); and the one request sent is `reorderVideos` with exactly the ids of
the new list, in order. -/
theorem handleDragEnd_reorders (s : State) (src dst : Nat)
    (hs : src < s.videos.length) (hd : dst < s.videos.length) :
    ∃ items,
      handleDragEnd s ⟨src, some dst⟩ =
        some ({ s with videos := items },
          [.reorderVideos s.id (items.map fun item => item._id)]) ∧
      items.Perm s.videos ∧ items.length = s.videos.length ∧
      items[dst]? = s.videos[src]? ∧
      items.eraseIdx dst = s.videos.eraseIdx src := by
  have hl : (s.videos.eraseIdx src).length = s.videos.length - 1 :=
    List.length_eraseIdx_of_lt hs
  refine ⟨(s.videos.eraseIdx src).take dst ++
      s.videos[src] :: (s.videos.eraseIdx src).drop dst, ?_,
    Js.move_spec s.videos src dst hs hd⟩
  simp only [handleDragEnd, Js.splice_remove_one s.videos src hs, List.head?_cons,
    Js.splice_insert_one (s.videos.eraseIdx src) dst s.videos[src] (by omega)]

/-- Witness for C16: the first of three videos is dragged to the end. -/
theorem handleDragEnd_reorders_witness :
    ∃ items,
      handleDragEnd samplePage ⟨0, some 2⟩ =
        some ({ samplePage with videos := items },
          [.reorderVideos samplePage.id (items.map fun item => item._id)]) ∧
      items.Perm samplePage.videos ∧ items.length = samplePage.videos.length ∧
      items[2]? = samplePage.videos[0]? ∧
      items.eraseIdx 2 = samplePage.videos.eraseIdx 0 :=
  handleDragEnd_reorders samplePage 0 2 (by decide) (by decide)

end EditCoursePage

/-! ## Theorems: videos and transcripts on the course page -/

namespace CourseDetailsPage

open Client

theorem socketCleanup_view (p : State) :
    (socketCleanup p).selectedVideo = p.selectedVideo ∧
    (socketCleanup p).isGeneratingTranscript = p.isGeneratingTranscript := by
  unfold socketCleanup
  split <;> simp

theorem socketSetup_view (p : State) :
    (socketSetup p).selectedVideo = p.selectedVideo ∧
    (socketSetup p).isGeneratingTranscript = p.isGeneratingTranscript := by
  unfold socketSetup
  split <;> simp

theorem socketEffect_view (p : State) :
    (socketEffect p).course = p.course ∧
    (socketEffect p).selectedVideo = p.selectedVideo ∧
    (socketEffect p).isGeneratingTranscript = p.isGeneratingTranscript := by
  refine ⟨(socketEffect_fields p).2.2, ?_, ?_⟩
  · unfold socketEffect
    rw [(socketSetup_view _).1, (socketCleanup_view p).1]
  · unfold socketEffect
    rw [(socketSetup_view _).2, (socketCleanup_view p).2]

/-- C17 fails on the code: on the example page (videos `v1`, `v2`, the first
one selected, as `fetchData` leaves it) a confirmed, successful
`handleDeleteVideo("v1")` leaves the course with the video list `[v2]` and the
selected video still `v1`, the video just deleted, not `v2`. -/
theorem handleDeleteVideo_keeps_deleted_selected :
    samplePage.selectedVideo = some sampleVideo1 ∧
    samplePage.course.map (fun c => c.videos) = some [sampleVideo1, sampleVideo2] ∧
    (handleDeleteVideo samplePage true "v1" (.ok ())).map
        (fun r => (r.1.selectedVideo, r.1.course.map fun c => c.videos)) =
      some (some sampleVideo1, some [sampleVideo2]) := by
  decide

/-- C18: a successful video deletion removes exactly the chosen video, on
both pages. On the edit page the videos cell becomes the original list
filtered by `_id ≠ videoId`, and a failed request returns the state unchanged.
On the course page (course loaded, deletion confirmed) the course cell becomes
the original course with its videos filtered the same way, and a failed
request returns the state unchanged. The filtered list is the original list
with every video whose `_id` is `videoId` removed and the others in their
original order. -/
theorem deleteVideo_removes_exactly (videoId : String) :
    (∀ s : EditCoursePage.State,
      (EditCoursePage.handleDeleteVideo s videoId (.ok ())).1.videos =
        s.videos.filter (fun video => video._id != videoId) ∧
      ∀ e, (EditCoursePage.handleDeleteVideo s videoId (.error e)).1 = s) ∧
    (∀ (p : State) (course : Course), p.course = some course →
      (∃ q, handleDeleteVideo p true videoId (.ok ()) =
          some (q, [.deleteVideo p.id videoId]) ∧
        q.course = some { course with
          videos := course.videos.filter fun video => video._id != videoId }) ∧
      ∀ e, handleDeleteVideo p true videoId (.error e) =
        some (p, [.deleteVideo p.id videoId])) ∧
    (∀ videos : List Video,
      (videos.filter fun video => video._id != videoId).Sublist videos ∧
      ∀ v, v ∈ (videos.filter fun video => video._id != videoId) ↔
        v ∈ videos ∧ v._id ≠ videoId) := by
  refine ⟨fun s => ⟨rfl, fun e => rfl⟩, ?_, ?_⟩
  · intro p course hc
    refine ⟨?_, fun e => rfl⟩
    simp only [handleDeleteVideo, hc]
    refine ⟨_, rfl, ?_⟩
    rw [(socketEffect_view _).1]
    split <;> rfl
  · intro videos
    exact ⟨List.filter_sublist _, fun v => by simp [List.mem_filter]⟩

/-- C19: `handleGenerateTranscript` does nothing (no request, same state)
when there is no selected video or a generation is in progress. Otherwise,
with the course loaded and the request successful, it sends the one
transcript request for the selected video, and in the resulting course every
course field but `videos` is unchanged, the video list has the same length,
and at every position the video is the original one with `transcript` set to
the returned transcript when its `_id` is the selected video's `_id` (other
fields unchanged) and the original one otherwise. -/
theorem handleGenerateTranscript_frame (p : State) :
    (p.selectedVideo = none ∨ p.isGeneratingTranscript = true →
      ∀ res, handleGenerateTranscript p res = some (p, [])) ∧
    (∀ (sel : Video) (course : Course) (t : String),
      p.selectedVideo = some sel → p.isGeneratingTranscript = false →
      p.course = some course →
      ∃ q course2,
        handleGenerateTranscript p (.ok t) =
          some (q, [.generateTranscript p.id sel._id]) ∧
        q.course = some course2 ∧
        course2._id = course._id ∧ course2.title = course.title ∧
        course2.description = course.description ∧
        course2.thumbnail = course.thumbnail ∧ course2.tutor = course.tutor ∧
        course2.videos.length = course.videos.length ∧
        ∀ (i : Nat) (v : Video), course.videos[i]? = some v →
          ∃ v2, course2.videos[i]? = some v2 ∧
            v2._id = v._id ∧ v2.title = v.title ∧ v2.videoUrl = v.videoUrl ∧
            v2.order = v.order ∧ (v._id = sel._id → v2.transcript = t) ∧
            (v._id ≠ sel._id → v2 = v)) := by
  constructor
  · intro h res
    unfold handleGenerateTranscript
    rcases h with h | h
    · simp [h]
    · cases hsel : p.selectedVideo <;> simp [h]
  · intro sel course t hsel hgen hc
    simp only [handleGenerateTranscript, hsel, hgen, generateTranscript_settle, hc]
    refine ⟨_, { course with
        videos := course.videos.map fun video =>
          if video._id == sel._id then { video with transcript := t } else video },
      rfl, ?_, rfl, rfl, rfl, rfl, rfl, by simp, ?_⟩
    · rw [(socketEffect_view _).1]
    · intro i v hv
      by_cases h : v._id = sel._id
      · exact ⟨{ v with transcript := t }, by simp [hv, h], rfl, rfl, rfl, rfl,
          fun _ => rfl, fun hne => absurd h hne⟩
      · exact ⟨v, by simp [hv, h], rfl, rfl, rfl, rfl, fun he => absurd he h,
          fun _ => rfl⟩

/-- Witness for C19: a transcript is generated for the selected first video
of the example page; the request is sent and the course keeps its two
videos. -/
theorem handleGenerateTranscript_frame_witness :
    ∃ q course2,
      handleGenerateTranscript samplePage (.ok "text") =
        some (q, [.generateTranscript samplePage.id sampleVideo1._id]) ∧
      q.course = some course2 ∧ course2.videos.length = 2 := by
  obtain ⟨q, course2, h, hc, _, _, _, _, _, hlen, _⟩ :=
    (handleGenerateTranscript_frame samplePage).2 sampleVideo1
      { sampleCourse with videos := [sampleVideo1, sampleVideo2] } "text"
      (by decide) (by decide) (by decide)
  exact ⟨q, course2, h, hc, hlen⟩

/-- C3, amended: `handleSendMessage` never inserts the sent message into the
local messages list: for every input the messages list after
`handleSendMessage` (and after the `submit` step of the page) equals the list
before it. The feed changes only when a `message` event is received, which
appends the message, or when a history response is applied, which replaces
the list by the fetched history: no other event of the page changes it, and
neither do the video and transcript handlers. -/
theorem feed_changes_only_on_message_or_history (p : State) :
    (handleSendMessage p).1.messages = p.messages ∧
    (step p .submit).messages = p.messages ∧
    (∀ ev, (step p ev).messages ≠ p.messages →
      (∃ m, ev = Event.message m) ∨ ∃ data, ev = Event.messagesResponse data) ∧
    (∀ m, (step p (.message m)).messages = p.messages ++ [m]) ∧
    (∀ data, (step p (.messagesResponse data)).messages = data) ∧
    (∀ confirmed videoId res q calls,
      handleDeleteVideo p confirmed videoId res = some (q, calls) →
      q.messages = p.messages) ∧
    (∀ res q calls, handleGenerateTranscript p res = some (q, calls) →
      q.messages = p.messages) := by
  obtain ⟨h1, h2, h3⟩ := handleSendMessage_keeps_messages p
  refine ⟨h1, h2, ?_, h3, fun _ => rfl, ?_, ?_⟩
  · intro ev hne
    cases ev with
    | message m => exact Or.inl ⟨m, rfl⟩
    | messagesResponse data => exact Or.inr ⟨data, rfl⟩
    | courseResponse data =>
      exact absurd (by simpa [received] using step_messages p (.courseResponse data) rfl) hne
    | fetchError => exact absurd rfl hne
    | connect sid => exact absurd rfl hne
    | reconnect sid => exact absurd rfl hne
    | routeChange newId =>
      exact absurd (by simpa [received] using step_messages p (.routeChange newId) rfl) hne
    | input text => exact absurd rfl hne
    | submit => exact absurd h2 hne
  · intro confirmed videoId res q calls h
    unfold handleDeleteVideo at h
    split at h
    · cases h
      rfl
    · split at h
      · cases h
        rfl
      · split at h
        · cases h
        · simp only [Option.some.injEq, Prod.mk.injEq] at h
          rw [← h.1, (socketEffect_fields _).1]
          split <;> rfl
  · intro res q calls h
    unfold handleGenerateTranscript at h
    split at h
    · cases h
      rfl
    · split at h
      · cases h
        rfl
      · rename_i sel hsel hgen
        cases res with
        | error e =>
          simp only [generateTranscript_settle, Option.map_some', Option.some.injEq,
            Prod.mk.injEq] at h
          rw [← h.1]
        | ok t =>
          unfold generateTranscript_settle at h
          simp only at h
          split at h
          · simp only [Option.map_some', Option.some.injEq, Prod.mk.injEq] at h
            rw [← h.1, (socketEffect_fields _).1]
          · simp at h

/-- C3 as stated fails: on the page that has received its course, the history
response `[m]` changes the messages list from empty to `[m]`, and a history
response is not a `message` event; no `message` event has been received. -/
theorem feed_changes_on_history_response :
    (run [.courseResponse sampleCourse, .connect 0]
      (State.init "c1" (some sampleUser))).messages = [] ∧
    (step (run [.courseResponse sampleCourse, .connect 0]
        (State.init "c1" (some sampleUser)))
      (.messagesResponse [sampleMessage])).messages = [sampleMessage] ∧
    received [Event.courseResponse sampleCourse, Event.connect 0,
      Event.messagesResponse [sampleMessage]] = [] := by
  decide

/-- The example page after a successful transcript generation: only the
transcript of the selected video `v1` has changed. -/
theorem handleGenerateTranscript_example :
    (handleGenerateTranscript samplePage (.ok "text")).map
        (fun r => (r.1.course.map (fun c => c.videos), r.1.selectedVideo, r.2)) =
      some (some [{ sampleVideo1 with transcript := "text" }, sampleVideo2],
        some { sampleVideo1 with transcript := "text" },
        [.generateTranscript "c1" "v1"]) := by
  decide

end CourseDetailsPage

/-! ## Theorems: required title and description -/

namespace CreateCoursePage

open Client

/-- C20: title and description are required. In `handleSubmit` of the create
page and in `handleSaveCourse` of the edit page, when the trimmed title or the
trimmed description is empty no request is sent and the state is unchanged;
otherwise the one request sent carries exactly the trimmed title and the
trimmed description, which are then non-empty; and a trimmed string neither
starts nor ends with white space. -/
theorem title_and_description_required :
    (∀ (s : State) (res : Except ApiError String),
      (Js.trim s.title = "" ∨ Js.trim s.description = "" →
        handleSubmit s res = (s, [])) ∧
      (Js.trim s.title ≠ "" → Js.trim s.description ≠ "" →
        (handleSubmit s res).2 =
          [.createCourse (Js.trim s.title) (Js.trim s.description) s.thumbnail])) ∧
    (∀ (s : EditCoursePage.State) (res : Except ApiError Unit),
      (Js.trim s.title = "" ∨ Js.trim s.description = "" →
        EditCoursePage.handleSaveCourse s res = (s, [])) ∧
      (Js.trim s.title ≠ "" → Js.trim s.description ≠ "" →
        (EditCoursePage.handleSaveCourse s res).2 =
          [.updateCourse s.id (Js.trim s.title) (Js.trim s.description)
            s.thumbnail])) ∧
    (∀ (text : String) (c : Char),
      ((Js.trim text).data.head? = some c → Js.isWhiteSpace c = false) ∧
      ((Js.trim text).data.getLast? = some c → Js.isWhiteSpace c = false)) := by
  refine ⟨fun s res => ⟨?_, ?_⟩, fun s res => ⟨?_, ?_⟩, Js.trim_no_outer_whiteSpace⟩
  · intro h
    unfold handleSubmit
    rcases h with h | h <;> simp [Js.truthy, h]
  · intro h1 h2
    unfold handleSubmit
    simp [Js.truthy, h1, h2]
  · intro h
    unfold EditCoursePage.handleSaveCourse
    rcases h with h | h <;> simp [Js.truthy, h]
  · intro h1 h2
    unfold EditCoursePage.handleSaveCourse
    simp [Js.truthy, h1, h2]

/-- Witness for C20: the edit page's example title `" Algebra "` is sent as
`"Algebra"`, and a create page with a blank title sends nothing. -/
theorem title_and_description_required_witness :
    (EditCoursePage.handleSaveCourse EditCoursePage.samplePage (.ok ())).2 =
      [.updateCourse "c1" "Algebra" "Groups and rings" none] ∧
    handleSubmit ⟨"  ", "text", none, none, false⟩ (.ok "c9") =
      (⟨"  ", "text", none, none, false⟩, []) :=
  ⟨(title_and_description_required.2.1 EditCoursePage.samplePage (.ok ())).2
      (by decide) (by decide),
    (title_and_description_required.1 ⟨"  ", "text", none, none, false⟩ (.ok "c9")).1
      (Or.inl (by decide))⟩

end CreateCoursePage

/-! ## Theorems: the MIME type of a transcript request -/

namespace transcriptGenerator

/-- C21: whatever `path.extname`, `toLowerCase` and `path.resolve` compute,
once the file has been read `generateTranscript` sends exactly one request to
the model, and its MIME type is `video/mp4` exactly when the lower-cased
extension of `videoUrl` is `.mp4` and `video/quicktime` for every other
extension; when the file cannot be read nothing is sent. -/
theorem generateTranscript_mimeType (lib : Lib) (videoUrl : String)
    (generateContent : Request → Except String String) :
    (generateTranscript lib videoUrl (.ok ()) generateContent).2 =
      [request lib videoUrl] ∧
    ((request lib videoUrl).fileData.mimeType = "video/mp4" ↔
      lib.toLowerCase (lib.extname videoUrl) = ".mp4") ∧
    (lib.toLowerCase (lib.extname videoUrl) ≠ ".mp4" →
      (request lib videoUrl).fileData.mimeType = "video/quicktime") ∧
    (∀ message,
      (generateTranscript lib videoUrl (.error message) generateContent).2 = []) := by
  refine ⟨?_, ?_, ?_, fun _ => rfl⟩
  · unfold generateTranscript
    simp only
    split <;> rfl
  · by_cases h : lib.toLowerCase (lib.extname videoUrl) = ".mp4"
    · simp [request, h]
    · simp [request, h]
  · intro h
    simp [request, h]

/-- C21 on the uploads the client accepts, with POSIX `extname` and ASCII
lower-casing: an MP4 upload is labelled `video/mp4` whatever the case of its
extension, a MOV upload `video/quicktime`. -/
theorem mimeType_of_accepted_uploads :
    (request sampleLib "uploads/lesson.mp4").fileData.mimeType = "video/mp4" ∧
    (request sampleLib "uploads/lesson.MP4").fileData.mimeType = "video/mp4" ∧
    (request sampleLib "uploads/lesson.mov").fileData.mimeType = "video/quicktime" ∧
    (request sampleLib "uploads/lesson.MOV").fileData.mimeType = "video/quicktime" := by
  decide

/-- Witness for C21: the upload `uploads/lesson.MP4`, whose lower-cased
extension is `.mp4`. -/
theorem generateTranscript_mimeType_witness :
    (request sampleLib "uploads/lesson.MP4").fileData.mimeType = "video/mp4" :=
  (generateTranscript_mimeType sampleLib "uploads/lesson.MP4"
    (fun _ => .ok "")).2.1.mpr (by decide)

end transcriptGenerator

/-! ## Theorems: course lists on the student dashboard -/

namespace StudentDashboard

open Client

/-- C22: `filteredAvailableCourses` is a sublist of `availableCourses` (order
kept); a course is in it exactly when it is available and its lower-cased
title or its lower-cased description contains the lower-cased search term;
and for the empty term (lower-casing the empty string gives the empty string)
it is the whole list. -/
theorem filteredAvailableCourses_spec (toLowerCase : String → String)
    (s : State) :
    (filteredAvailableCourses toLowerCase s).Sublist s.availableCourses ∧
    (∀ c, c ∈ filteredAvailableCourses toLowerCase s ↔
      c ∈ s.availableCourses ∧
        (List.IsInfix (toLowerCase s.searchTerm).data (toLowerCase c.title).data ∨
          List.IsInfix (toLowerCase s.searchTerm).data
            (toLowerCase c.description).data)) ∧
    (toLowerCase "" = "" → s.searchTerm = "" →
      filteredAvailableCourses toLowerCase s = s.availableCourses) := by
  refine ⟨List.filter_sublist _, fun c => ?_, fun h0 hs => ?_⟩
  · simp [filteredAvailableCourses, List.mem_filter, Js.includes]
  · unfold filteredAvailableCourses
    rw [List.filter_eq_self]
    intro c _
    simp [hs, h0, Js.includes]

/-- Witness for C22: searching the three example courses for `Algebra` keeps
the first (title) and the third (description), and the empty term keeps
all. -/
theorem filteredAvailableCourses_spec_witness :
    filteredAvailableCourses Js.toLowerCaseAscii
        { State.init with availableCourses := sampleCourses, searchTerm := "" } =
      sampleCourses ∧
    (filteredAvailableCourses Js.toLowerCaseAscii
        { State.init with availableCourses := sampleCourses,
                          searchTerm := "Algebra" }).map (fun c => c._id) =
      ["c1", "c3"] :=
  ⟨(filteredAvailableCourses_spec Js.toLowerCaseAscii
      { State.init with availableCourses := sampleCourses, searchTerm := "" }).2.2
      (by decide) rfl,
    by decide⟩

theorem fetchData_lists (s : State) (enrollments : List EnrollmentItem)
    (allCourses : List Course)
    (notificationsRes : Except ApiError (List Notification))
    (unreadCountRes : Except ApiError Int)
    (hall : ∀ e ∈ enrollments, e.course.isSome = true) :
    (fetchData s (.ok enrollments) (.ok allCourses) notificationsRes
        unreadCountRes).enrolledCourses =
      enrollments.map (fun enrollment => enrollment.course) ∧
    (fetchData s (.ok enrollments) (.ok allCourses) notificationsRes
        unreadCountRes).availableCourses =
      allCourses.filter fun course =>
        !((enrollments.map fun enrollment => enrollment.course).filterMap
            fun course => course.map fun c => c._id).contains course._id := by
  have hany : ((enrollments.map fun enrollment => enrollment.course).any
      fun course => course.isNone) = false := by
    rw [List.any_eq_false]
    intro x hx
    obtain ⟨e, he, rfl⟩ := List.mem_map.mp hx
    have := hall e he
    cases hc : e.course with
    | none => simp [hc] at this
    | some c => simp
  unfold fetchData
  simp only [hany]
  cases notificationsRes <;> cases unreadCountRes <;> exact ⟨rfl, rfl⟩

/-- Whatever the four requests return, a fetch that starts from the state on
mount leaves no course `_id` in both lists. -/
theorem fetchData_init_disjoint
    (enrollmentsRes : Except ApiError (List EnrollmentItem))
    (allCoursesRes : Except ApiError (List Course))
    (notificationsRes : Except ApiError (List Notification))
    (unreadCountRes : Except ApiError Int) :
    DisjointIds (fetchData State.init enrollmentsRes allCoursesRes notificationsRes
      unreadCountRes) := by
  have hfilter : ∀ (enrolled : List (Option Course)) (allCourses : List Course),
      ∀ e ∈ enrolled, ∀ c, e = some c →
        ∀ a ∈ allCourses.filter (fun course =>
          !(enrolled.filterMap fun course => course.map fun c => c._id).contains
            course._id), c._id ≠ a._id := by
    intro enrolled allCourses e he c hc a ha heq
    have h2 := (List.mem_filter.mp ha).2
    have hin : c._id ∈ enrolled.filterMap fun course => course.map fun c => c._id :=
      List.mem_filterMap.mpr ⟨e, he, by simp [hc]⟩
    rw [heq] at hin
    simp [hin] at h2
  unfold fetchData
  cases enrollmentsRes with
  | error e => intro e he; simp [State.init] at he
  | ok enrollments =>
    cases allCoursesRes with
    | error e => intro e he c hc a ha; simp [State.init] at ha
    | ok allCourses =>
      simp only
      split
      · intro e he c hc a ha
        simp [State.init] at ha
      · cases notificationsRes <;> cases unreadCountRes <;>
          exact hfilter _ allCourses

theorem handleEnroll_disjoint (s : State) (courseId : String)
    (res : Except ApiError Unit) (h : DisjointIds s) :
    DisjointIds (handleEnroll s courseId res).1 := by
  cases res with
  | error e => exact h
  | ok u =>
    intro e he c hc a ha
    have ha2 := List.mem_filter.mp ha
    rcases List.mem_append.mp he with he | he
    · exact h e he c hc a ha2.1
    · rw [List.mem_singleton.mp he] at hc
      have hci := List.find?_some hc
      intro heq
      have h3 := ha2.2
      rw [← heq] at h3
      simp at hci h3
      exact h3 hci

theorem runEnrolls_disjoint (calls : List (String × Except ApiError Unit))
    (s : State) (h : DisjointIds s) : DisjointIds (runEnrolls s calls) := by
  induction calls generalizing s with
  | nil => exact h
  | cons call calls ih =>
    exact ih _ (handleEnroll_disjoint s call.1 call.2 h)

/-- C23, amended: enrolled and available courses stay disjoint. After a fetch
whose enrollment and course requests succeed and in which every enrollment
carries a populated course, `enrolledCourses` holds the courses of the
enrollments and `availableCourses` exactly the courses of the full list whose
`_id` is not the `_id` of an enrolled course. A successful
`handleEnroll(courseId)` appends what `find` returns for the id, which is an
available course with that `_id` whenever there is one, and removes every
course with that `_id` from `availableCourses`. A failed `handleEnroll`
returns the state unchanged. After the initial fetch, whatever its requests
return, and any sequence of `handleEnroll` calls, no course `_id` is in both
lists. -/
theorem enrolled_available_disjoint (s : State) :
    (∀ (enrollments : List EnrollmentItem) (allCourses : List Course)
        (notificationsRes : Except ApiError (List Notification))
        (unreadCountRes : Except ApiError Int),
      (∀ e ∈ enrollments, e.course.isSome = true) →
      (fetchData s (.ok enrollments) (.ok allCourses) notificationsRes
          unreadCountRes).enrolledCourses =
        enrollments.map (fun enrollment => enrollment.course) ∧
      (∀ c, c ∈ (fetchData s (.ok enrollments) (.ok allCourses) notificationsRes
            unreadCountRes).availableCourses ↔
          c ∈ allCourses ∧
            ∀ e ∈ enrollments, ∀ ec, e.course = some ec → ec._id ≠ c._id) ∧
      ((fetchData s (.ok enrollments) (.ok allCourses) notificationsRes
          unreadCountRes).availableCourses).Sublist allCourses) ∧
    (∀ courseId,
      handleEnroll s courseId (.ok ()) =
        ({ s with
            enrolledCourses := s.enrolledCourses ++
              [s.availableCourses.find? fun c => c._id == courseId]
            availableCourses := s.availableCourses.filter fun c => c._id != courseId },
          [.enrollCourse courseId]) ∧
      (∀ c ∈ (handleEnroll s courseId (.ok ())).1.availableCourses,
        c ∈ s.availableCourses ∧ c._id ≠ courseId) ∧
      (∀ c ∈ s.availableCourses, c._id ≠ courseId →
        c ∈ (handleEnroll s courseId (.ok ())).1.availableCourses) ∧
      ((∃ c ∈ s.availableCourses, c._id = courseId) →
        ∃ course, (s.availableCourses.find? fun c => c._id == courseId) = some course ∧
          course ∈ s.availableCourses ∧ course._id = courseId) ∧
      (DisjointIds s → DisjointIds (handleEnroll s courseId (.ok ())).1)) ∧
    (∀ courseId e, handleEnroll s courseId (.error e) = (s, [.enrollCourse courseId])) ∧
    (∀ (enrollmentsRes : Except ApiError (List EnrollmentItem))
        (allCoursesRes : Except ApiError (List Course))
        (notificationsRes : Except ApiError (List Notification))
        (unreadCountRes : Except ApiError Int)
        (calls : List (String × Except ApiError Unit)),
      DisjointIds (runEnrolls
        (fetchData State.init enrollmentsRes allCoursesRes notificationsRes
          unreadCountRes) calls)) := by
  refine ⟨?_, ?_, fun _ _ => rfl, ?_⟩
  · intro enrollments allCourses notificationsRes unreadCountRes hall
    obtain ⟨h1, h2⟩ :=
      fetchData_lists s enrollments allCourses notificationsRes unreadCountRes hall
    refine ⟨h1, fun c => ?_, ?_⟩
    · rw [h2]
      simp only [List.mem_filter, Bool.not_eq_true', List.contains_eq_any_beq,
        List.any_eq_false, List.mem_filterMap, List.mem_map, beq_iff_eq]
      constructor
      · rintro ⟨hc, hn⟩
        refine ⟨hc, fun e he ec hec heq => ?_⟩
        exact hn ec._id ⟨e.course, ⟨e, he, rfl⟩, by simp [hec]⟩ heq.symm
      · rintro ⟨hc, hn⟩
        refine ⟨hc, ?_⟩
        rintro x ⟨o, ⟨e, he, rfl⟩, ho⟩ heq
        cases hec : e.course with
        | none => simp [hec] at ho
        | some ec =>
          simp [hec] at ho
          exact hn e he ec hec (ho.trans heq.symm)
    · rw [h2]
      exact List.filter_sublist _
  · intro courseId
    refine ⟨rfl, ?_, ?_, ?_, handleEnroll_disjoint s courseId (.ok ())⟩
    · intro c hc
      have := List.mem_filter.mp hc
      exact ⟨this.1, by simpa using this.2⟩
    · intro c hc hne
      exact List.mem_filter.mpr ⟨hc, by simpa using hne⟩
    · rintro ⟨c, hc, hid⟩
      have hsome : (s.availableCourses.find? fun c => c._id == courseId).isSome
          = true := by
        rw [List.find?_isSome]
        exact ⟨c, hc, by simp [hid]⟩
      obtain ⟨course, hfind⟩ := Option.isSome_iff_exists.mp hsome
      exact ⟨course, hfind, List.mem_of_find?_eq_some hfind,
        by simpa using List.find?_some hfind⟩
  · intro enrollmentsRes allCoursesRes notificationsRes unreadCountRes calls
    exact runEnrolls_disjoint calls _
      (fetchData_init_disjoint enrollmentsRes allCoursesRes notificationsRes
        unreadCountRes)

/-- Witness for C23 (amended): with `c1` enrolled, a fetch of the three
example courses followed by a successful enrollment in `c2` and a failed one
in `c3` leaves no `_id` in both lists. -/
theorem enrolled_available_disjoint_witness :
    DisjointIds (runEnrolls
      (fetchData State.init
        (.ok [⟨"e1", some (sampleCourse "c1" "Linear Algebra" "Vectors and matrices")⟩])
        (.ok sampleCourses) (.ok []) (.ok 0))
      [("c2", .ok ()), ("c3", .error ⟨some 400, some "Already enrolled"⟩)]) :=
  (enrolled_available_disjoint State.init).2.2.2 _ _ _ _ _

/-- The example run of C23 evaluated: ids available after the fetch, and ids
enrolled and available after enrolling in `c2`. -/
theorem enrolled_available_example :
    ((fetchData State.init
        (.ok [⟨"e1", some (sampleCourse "c1" "Linear Algebra" "Vectors and matrices")⟩])
        (.ok sampleCourses) (.ok []) (.ok 0)).availableCourses.map fun c => c._id) =
      ["c2", "c3"] ∧
    ((handleEnroll
        (fetchData State.init
          (.ok [⟨"e1", some (sampleCourse "c1" "Linear Algebra" "Vectors and matrices")⟩])
          (.ok sampleCourses) (.ok []) (.ok 0))
        "c2" (.ok ())).1.enrolledCourses.map fun c => c.map fun x => x._id) =
      [some "c1", some "c2"] ∧
    ((handleEnroll
        (fetchData State.init
          (.ok [⟨"e1", some (sampleCourse "c1" "Linear Algebra" "Vectors and matrices")⟩])
          (.ok sampleCourses) (.ok []) (.ok 0))
        "c2" (.ok ())).1.availableCourses.map fun c => c._id) = ["c3"] := by
  decide

/-- C23 as stated fails: an enrollment arrives with a null course (its course
is not in the store) while the full course list holds the three example
courses, none of them enrolled. `fetchData` stores `[null]` in
`enrolledCourses`, throws at `course._id` and never sets `availableCourses`,
which stays empty instead of holding the three courses. -/
theorem fetchData_null_course_leaves_available_empty :
    (fetchData State.init (.ok [⟨"e1", none⟩]) (.ok sampleCourses) (.ok [])
      (.ok 0)).enrolledCourses = [none] ∧
    (fetchData State.init (.ok [⟨"e1", none⟩]) (.ok sampleCourses) (.ok [])
      (.ok 0)).availableCourses = [] ∧
    sampleCourses.length = 3 := by
  decide

end StudentDashboard

/-! ## Theorems: a drag that moves nothing -/

namespace Js

/-- Removing the element at `i` and inserting it again at `i` gives the list
back. -/
theorem move_same {α : Type} (xs : List α) (i : Nat) (hi : i < xs.length) :
    (xs.eraseIdx i).take i ++ xs[i] :: (xs.eraseIdx i).drop i = xs := by
  have hl : (xs.take i).length = i := by
    rw [List.length_take]
    omega
  have h1 : (xs.eraseIdx i).take i = xs.take i := by
    rw [List.eraseIdx_eq_take_drop_succ, List.take_append_of_le_length (by omega),
      List.take_take, Nat.min_self]
  have h2 : (xs.eraseIdx i).drop i = xs.drop (i + 1) := by
    rw [List.eraseIdx_eq_take_drop_succ, List.drop_append_of_le_length (by omega),
      List.drop_of_length_le (by omega), List.nil_append]
  rw [h1, h2, ← List.drop_eq_getElem_cons hi, List.take_append_drop]

end Js

namespace EditCoursePage

open Client

/-- C24: `handleDragEnd` is the identity when nothing moves. Without a
destination the state is returned unchanged and no request is sent; with the
destination index equal to a source index inside the list, the state (so the
videos list) is returned unchanged, and the request sent carries the ids in
their original order. -/
theorem handleDragEnd_identity (s : State) :
    (∀ src, handleDragEnd s ⟨src, none⟩ = some (s, [])) ∧
    (∀ i, i < s.videos.length →
      handleDragEnd s ⟨i, some i⟩ =
        some (s, [.reorderVideos s.id (s.videos.map fun item => item._id)])) := by
  refine ⟨fun _ => rfl, fun i hi => ?_⟩
  have hl : (s.videos.eraseIdx i).length = s.videos.length - 1 :=
    List.length_eraseIdx_of_lt hi
  simp only [handleDragEnd, Js.splice_remove_one s.videos i hi, List.head?_cons,
    Js.splice_insert_one (s.videos.eraseIdx i) i s.videos[i] (by omega),
    Js.move_same s.videos i hi]

/-- Witness for C24: the second of the three example videos is dropped where
it was. -/
theorem handleDragEnd_identity_witness :
    handleDragEnd samplePage ⟨1, some 1⟩ =
      some (samplePage, [.reorderVideos "c1" ["v1", "v2", "v3"]]) :=
  (handleDragEnd_identity samplePage).2 1 (by decide)

end EditCoursePage

/-! ## Theorems: duplicate enrollment -/

namespace enrollmentController

open Server

/-- C25, amended: whenever an Enrollment with student = the authenticated
user and course = `courseId` already exists, `enrollCourse` returns with the
store unchanged (no Enrollment created or modified) and sends no 201; when
`Enrollment.findOne` does not fail the one response is 400 `Already
enrolled`, and when it fails the one response is 500 `Server error`. -/
theorem enrollCourse_duplicate (ft : Faults) (env : Env) (db : Store) (req : Req)
    (body : ReqBody) (hb : req.body = some body)
    (he : ∃ e ∈ db.enrollments,
      e.student = req.user.userId ∧ e.course = body.courseId) :
    ∃ r, enrollCourse ft env db req = .ok r ∧ r.store = db ∧
      (∀ resp ∈ r.sent, resp.status ≠ 201) ∧
      (ft.enrollmentFindOne = false →
        r.sent = [⟨400, .message "Already enrolled"⟩]) ∧
      (ft.enrollmentFindOne = true →
        r.sent = [⟨500, .message "Server error"⟩]) := by
  obtain ⟨e, hmem, hs, hc⟩ := he
  have hsome : (findOne db req.user.userId body.courseId).isSome = true := by
    unfold findOne
    rw [List.find?_isSome]
    exact ⟨e, hmem, by simp [hs, hc]⟩
  obtain ⟨e0, hfind⟩ := Option.isSome_iff_exists.mp hsome
  unfold enrollCourse
  rw [hb]
  by_cases hf : ft.enrollmentFindOne = true
  · simp only [hf, if_true]
    refine ⟨_, rfl, rfl, ?_, ?_, fun _ => rfl⟩
    · simp [serverError]
    · intro h
      cases h
  · simp only [hf, hfind]
    refine ⟨_, rfl, rfl, ?_, fun _ => rfl, fun h => ?_⟩
    · simp
    · cases h

/-- Witness for C25 (amended): `s1` is enrolled in `c1` and asks again. -/
theorem enrollCourse_duplicate_witness :
    ∃ r, enrollCourse noFaults sampleEnv enrolledStore (sampleReq "s1" "c1") = .ok r ∧
      r.store = enrolledStore ∧
      (∀ resp ∈ r.sent, resp.status ≠ 201) ∧
      (noFaults.enrollmentFindOne = false →
        r.sent = [⟨400, .message "Already enrolled"⟩]) ∧
      (noFaults.enrollmentFindOne = true →
        r.sent = [⟨500, .message "Server error"⟩]) :=
  enrollCourse_duplicate noFaults sampleEnv enrolledStore (sampleReq "s1" "c1")
    ⟨"c1"⟩ rfl ⟨⟨"e0", "s1", "c1", 0, 500⟩, by decide, rfl, rfl⟩

/-- C25 as stated fails: `s1` is already enrolled in `c1`, but
`Enrollment.findOne` rejects; the response is 500 `Server error`, not 400
`Already enrolled` (the store is unchanged and no 201 is sent). -/
theorem enrollCourse_duplicate_store_failure :
    (⟨"e0", "s1", "c1", 0, 500⟩ : Enrollment) ∈ enrolledStore.enrollments ∧
    enrollCourse ⟨true, false, false, false⟩ sampleEnv enrolledStore
        (sampleReq "s1" "c1") =
      .ok ⟨enrolledStore, [⟨500, .message "Server error"⟩],
        [⟨.enrollmentFindOne, true⟩]⟩ :=
  ⟨by decide, rfl⟩

end enrollmentController
